import Mathlib

/-!
# bee-lite: upload sessions, access control wrapping and grantee registry

Shallow embedding of the entry points of `package beelite`
(`accesscontrol.go`, `bytes.go`, `chunk.go`, `soc.go`, `feed.go`,
`grantee.go`, `utils.go`).

Conventions of the embedding.

* A Go function with results `(reference, newHistoryAddress, err)` becomes a
  function returning a `Ret` record together with the trace of collaborator
  calls it made.  Named results keep the value they hold at the `return`.
* Every call to an external collaborator (chunk store, postage service,
  access-control controller, split pipeline, putter session) appends one
  `Event` to the trace.  A collaborator is a field of `Beelite` (or of the
  `Putter` it handed out) and receives the trace of everything that happened
  before the call, so its answer may depend on the whole history.
* Pure library functions (`encoding/hex`, `cac`, `soc`, `btcec`) are fields of
  `Lib`.
* A Go slice that may be `nil` is an `Option (List _)`: `none` is `nil`,
  `some []` is a non-nil empty slice.
-/

namespace BeeLite

/-! ## Data model -/

/-- A byte string. -/
abbrev Bytes := List Nat

/-- The type swarm.Address: a wrapper around a byte slice, compared bytewise. -/
abbrev Address := List Nat

/-- The value swarm.ZeroAddress, the address over the nil byte slice; it is also
the zero value of an unassigned named result of type swarm.Address. -/
def ZeroAddress : Address := []

/-- The value swarm.EmptyAddress, thirty-two zero bytes. -/
def EmptyAddress : Address := List.replicate 32 0

/-- The constant swarm.SpanSize. -/
def SpanSize : Nat := 8

/-- The constant swarm.ChunkSize. -/
def ChunkSize : Nat := 4096

/-- Go error values.  `wrap` is `fmt.Errorf("msg: %w", e)`, `fmtv` is a
formatting of `e` with `%v` (the cause cannot be unwrapped), `join1` and
`join2` are `errors.Join` with one resp. two non-nil arguments. -/
inductive Error where
  | new (msg : String)
  | collab (code : Nat)
  | wrap (msg : String) (inner : Error)
  | fmtv (msg : String) (inner : Error)
  | join1 (e : Error)
  | join2 (e1 e2 : Error)
  deriving DecidableEq, Repr

deriving instance DecidableEq for Except

/-- The function errors.Join applied to a non-nil first error and a possibly nil second one. -/
def Error.joinWith (e : Error) : Option Error → Error
  | none => Error.join1 e
  | some c => Error.join2 e c

/-- The function errors.Is: does the error tree of `e` contain `target`. -/
def Error.is (e target : Error) : Bool :=
  e == target ||
  match e with
  | Error.wrap _ inner => inner.is target
  | Error.join1 a => a.is target
  | Error.join2 a b => a.is target || b.is target
  | _ => false

/-- A swarm.Chunk: address and data (the stamp is attached by the putter). -/
structure Chunk where
  address : Address
  data : Bytes
  deriving DecidableEq, Repr

/-- An ecdsa public key. -/
structure PublicKey where
  x : Nat
  y : Nat
  deriving DecidableEq, Repr

/-- An io.Reader, given by what reading it to the end yields. -/
structure Reader where
  data : Bytes
  err : Option Error
  deriving DecidableEq, Repr

/-- A postage.Stamp after deserialisation. -/
structure Stamp where
  batchID : Bytes
  raw : Bytes
  deriving DecidableEq, Repr

/-- A postage stamp issuer handle. -/
structure StampIssuer where
  id : Nat
  deriving DecidableEq, Repr

/-- The struct putterOptions of utils.go. -/
structure putterOptions where
  BatchID : Bytes
  TagID : Nat
  Deferred : Bool
  Pin : Bool
  deriving DecidableEq, Repr

/-- A single-owner chunk as built by soc.NewSigned or soc.FromChunk. -/
structure SOC where
  id : Bytes
  owner : Bytes
  signature : Bytes
  inner : Chunk
  deriving DecidableEq, Repr

/-- One call to an external collaborator. -/
inductive Event where
  | newSession
  | session (tag : Nat)
  | batchExists (batch : Bytes)
  | getStampIssuer (batch : Bytes)
  | issuerUsable (issuer : StampIssuer)
  | upload (pin : Bool) (tag : Nat)
  | directUpload
  | newStampedPutter (opts : putterOptions) (stamp : Stamp)
  | pipeline (encrypt : Bool) (rLevel : Nat) (reader : Reader)
  | manifestNew (encrypt : Bool) (rLevel : Nat)
  | manifestAdd (owner topic : Bytes)
  | manifestStore
  | uploadHandler (reference : Address) (publisher : PublicKey) (history : Address)
  | updateHandler (grantees history : Address) (publisher : PublicKey)
      (add revoke : Option (List PublicKey))
  | downloadHandler (reference : Address) (publisher : PublicKey) (history : Address) (ts : Int)
  | accessGet (publisher : PublicKey) (reference : Address)
  | put (c : Chunk)
  | done (a : Address)
  | cleanup
  | storeGet (cache : Bool) (a : Address)
  | joinerNew (a : Address)
  | newLookup (topic owner : Bytes)
  | lookupAt (topic owner : Bytes) (atTime : Int) (after : Nat)
  | getWrappedChunk (ch : Chunk)
  deriving DecidableEq, Repr

/-- The calls made so far, oldest first. -/
abbrev Trace := List Event

/-- A storer.PutterSession as the entry points see it: an interface value with
`Put`, `Done` and `Cleanup`. -/
structure Putter where
  put : Trace → Chunk → Option Error
  done : Trace → Address → Option Error
  cleanup : Trace → Option Error

/-- The `save` callback handed out together with a stamp issuer. -/
abbrev SaveFn := Trace → Option Error

/-- A postage.Stamper as built by postage.NewStamper. -/
structure Stamper where
  issuer : StampIssuer
  deriving DecidableEq, Repr

/-- The three results `(reference, newHistoryAddress, err)` of a write entry point. -/
structure Ret where
  reference : Address
  newHistoryAddress : Address
  err : Option Error
  deriving DecidableEq, Repr

/-- Pure library functions used by the entry points. -/
structure Lib where
  /-- The function hex.DecodeString. -/
  hexDecode : String → Except Error Bytes
  /-- The function cac.NewWithDataSpan. -/
  cacNewWithDataSpan : Bytes → Except Error Chunk
  /-- The function soc.FromChunk. -/
  socFromChunk : Chunk → Except Error SOC
  /-- The function soc.NewSigned. -/
  socNewSigned : Bytes → Chunk → Bytes → Bytes → Except Error SOC
  /-- The method (*soc.SOC).Chunk. -/
  socChunk : SOC → Except Error Chunk
  /-- The function soc.Valid. -/
  socValid : Chunk → Bool
  /-- The method (*postage.Stamp).UnmarshalBinary. -/
  stampUnmarshal : Bytes → Except Error Stamp
  /-- The function btcec.ParsePubKey followed by ToECDSA. -/
  parsePubKey : Bytes → Except Error PublicKey
  /-- The function crypto.EncodeSecp256k1PublicKey followed by hex.EncodeToString. -/
  encodePubKeyHex : PublicKey → String

/-- The receiver `bl *Beelite`: node configuration and the stateful collaborators. -/
structure Beelite where
  publicKey : PublicKey
  /-- Whether bl.BeeNodeMode equals api.DevMode. -/
  devMode : Bool
  /-- The value of time.Now().Unix(). -/
  now : Int
  /-- The method BatchStore.Exists. -/
  batchExists : Trace → Bytes → Except Error Bool
  /-- The method Post.GetStampIssuer. -/
  getStampIssuer : Trace → Bytes → Except Error (StampIssuer × SaveFn)
  /-- The method Post.IssuerUsable. -/
  issuerUsable : Trace → StampIssuer → Bool
  /-- The method Storer.Upload. -/
  upload : Trace → Bool → Nat → Except Error Putter
  /-- The method Storer.DirectUpload. -/
  directUpload : Trace → Putter
  /-- The method Storer.NewSession: the tag id and the error. -/
  newSession : Trace → Nat × Option Error
  /-- The method Storer.Session: the tag id and the error. -/
  session : Trace → Nat → Nat × Option Error
  /-- The methods of putterSessionWrapper, which are declared outside the given
  sources: the wrapper built from a session, a stamper and a save callback. -/
  wrapSession : Putter → Stamper → SaveFn → Putter
  /-- The method bl.newStampedPutter, declared outside the given sources. -/
  newStampedPutter : Trace → putterOptions → Stamp → Except Error Putter
  /-- The function builder.FeedPipeline over a pipeline writing to the putter. -/
  feedPipeline : Trace → Putter → Bool → Nat → Reader → Address × Option Error
  /-- The function manifest.NewDefaultManifest over a load-saver whose pipeline
  writes to the putter with the given encryption flag and redundancy level. -/
  manifestNew : Trace → Putter → Bool → Nat → Option Error
  /-- The method manifest.Interface.Add. -/
  manifestAdd : Trace → Bytes → Bytes → Option Error
  /-- The method manifest.Interface.Store. -/
  manifestStore : Trace → Address × Option Error
  /-- The method accesscontrol.UploadHandler:
  storage reference, history reference, encrypted reference. -/
  uploadHandler : Trace → Putter → Address → PublicKey → Address →
    Except Error (Address × Address × Address)
  /-- The method accesscontrol.UpdateHandler:
  grantee reference, encrypted grantee reference, history reference, act reference. -/
  updateHandler : Trace → Putter → Address → Address → PublicKey →
    Option (List PublicKey) → Option (List PublicKey) →
    Except Error (Address × Address × Address × Address)
  /-- The method accesscontrol.DownloadHandler. -/
  downloadHandler : Trace → Address → PublicKey → Address → Int → Except Error Address
  /-- The method accesscontrol.Get. -/
  accessGet : Trace → PublicKey → Address → Except Error (List PublicKey)
  /-- The method Storer.Download(cache).Get. -/
  storeGet : Trace → Bool → Address → Except Error Chunk
  /-- The function joiner.New: the content behind a root. -/
  joinerNew : Trace → Address → Except Error Bytes
  /-- The method feedFactory.NewLookup for a sequence feed of the topic and owner. -/
  newLookup : Trace → Bytes → Bytes → Option Error
  /-- The method Lookup.At: the latest update chunk, nil when the feed was never
  updated. -/
  lookupAt : Trace → Bytes → Bytes → Int → Nat → Except Error (Option Chunk)
  /-- The function feeds.GetWrappedChunk. -/
  getWrappedChunk : Trace → Chunk → Except Error Chunk

/-! ## `accesscontrol.go` -/

/-- The method actDecryptionHandler. -/
def actDecryptionHandler (bl : Beelite) (reference : Address) (publisher : Option PublicKey)
    (historyAddress : Option Address) (timestamp : Option Int) (_cache : Bool) (t : Trace) :
    (Address × Option Error) × Trace :=
  match publisher, historyAddress with
  | some pub, some hist =>
    let ts := match timestamp with
      | some v => v
      | none => bl.now
    match bl.downloadHandler t reference pub hist ts with
    | Except.error err => ((ZeroAddress, some err), t ++ [Event.downloadHandler reference pub hist ts])
    | Except.ok decryptedRef =>
      ((decryptedRef, none), t ++ [Event.downloadHandler reference pub hist ts])
  | _, _ => ((reference, none), t)

/-- The method actEncryptionHandler. -/
def actEncryptionHandler (bl : Beelite) (putter : Putter) (reference historyRootHash : Address)
    (t : Trace) : Ret × Trace :=
  let t1 := t ++ [Event.uploadHandler reference bl.publicKey historyRootHash]
  match bl.uploadHandler t putter reference bl.publicKey historyRootHash with
  | Except.error err => (⟨ZeroAddress, ZeroAddress, some err⟩, t1)
  | Except.ok (storageReference, historyReference, encryptedReference) =>
    if historyReference ≠ historyRootHash then
      match putter.done t1 storageReference with
      | some err =>
        (⟨ZeroAddress, ZeroAddress, some (Error.wrap "done split key-value store failed" err)⟩,
          t1 ++ [Event.done storageReference])
      | none =>
        match putter.done (t1 ++ [Event.done storageReference]) historyReference with
        | some err =>
          (⟨ZeroAddress, ZeroAddress, some (Error.wrap "done split history failed" err)⟩,
            t1 ++ [Event.done storageReference] ++ [Event.done historyReference])
        | none =>
          (⟨encryptedReference, historyReference, none⟩,
            t1 ++ [Event.done storageReference] ++ [Event.done historyReference])
    else
      (⟨encryptedReference, historyReference, none⟩, t1)

/-- The statement `if act { …, err = bl.actEncryptionHandler(ctx, putter, reference,
historyAddress) }` of the four write entry points (bytes.go 67-74, chunk.go 129-135,
soc.go 126-132, feed.go 116-123): without `act` the reference is left as it is,
newHistoryAddress keeps its zero value and the error stays nil. -/
def actIfRequested (bl : Beelite) (putter : Putter) (act : Bool)
    (reference historyAddress : Address) (t : Trace) : Ret × Trace :=
  if act then
    actEncryptionHandler bl putter reference historyAddress t
  else
    (⟨reference, ZeroAddress, none⟩, t)

/-! ## `utils.go` -/

/-- The sentinel errBatchUnusable. -/
def errBatchUnusable : Error := Error.new "batch not usable"

/-- The sentinel errUnsupportedDevNodeOperation. -/
def errUnsupportedDevNodeOperation : Error := Error.new "operation not supported in dev mode"

/-- Modelled from the spec: the sentinel errInvalidPostageBatch is used by every
write entry point but declared outside the given sources; the spec lists a
malformed batch encoding as an InputError. -/
def errInvalidPostageBatch : Error := Error.new "invalid postage batch id"

/-- The sentinel storage.ErrNotFound of the chunk store. -/
def ErrNotFound : Error := Error.new "storage: not found"

/-- The method getStamper. -/
def getStamper (bl : Beelite) (batchID : Bytes) (t : Trace) :
    Except Error (Stamper × SaveFn) × Trace :=
  match bl.batchExists t batchID with
  | Except.error err => (Except.error (Error.wrap "batch exists" err), t ++ [Event.batchExists batchID])
  | Except.ok found =>
    let t1 := t ++ [Event.batchExists batchID]
    match bl.getStampIssuer t1 batchID with
    | Except.error err =>
      (Except.error (Error.wrap "stamp issuer" err), t1 ++ [Event.getStampIssuer batchID])
    | Except.ok (issuer, save) =>
      let t2 := t1 ++ [Event.getStampIssuer batchID]
      if found then
        if bl.issuerUsable t2 issuer then
          (Except.ok (⟨issuer⟩, save), t2 ++ [Event.issuerUsable issuer])
        else
          (Except.error errBatchUnusable, t2 ++ [Event.issuerUsable issuer])
      else
        (Except.error errBatchUnusable, t2)

/-- The method newStamperPutter. -/
def newStamperPutter (bl : Beelite) (opts : putterOptions) (t : Trace) :
    Except Error Putter × Trace :=
  if !opts.Deferred && bl.devMode then
    (Except.error errUnsupportedDevNodeOperation, t)
  else
    match getStamper bl opts.BatchID t with
    | (Except.error err, t1) => (Except.error (Error.wrap "get stamper" err), t1)
    | (Except.ok (stamper, save), t1) =>
      if opts.Deferred || opts.Pin then
        match bl.upload t1 opts.Pin opts.TagID with
        | Except.error err =>
          (Except.error (Error.wrap "failed creating session" err),
            t1 ++ [Event.upload opts.Pin opts.TagID])
        | Except.ok session =>
          (Except.ok (bl.wrapSession session stamper save),
            t1 ++ [Event.upload opts.Pin opts.TagID])
      else
        (Except.ok (bl.wrapSession (bl.directUpload t1) stamper save),
          t1 ++ [Event.directUpload])

/-- The method getOrCreateSessionID: the tag id and the error. -/
def getOrCreateSessionID (bl : Beelite) (tagUid : Nat) (t : Trace) :
    (Nat × Option Error) × Trace :=
  if tagUid = 0 then
    (bl.newSession t, t ++ [Event.newSession])
  else
    (bl.session t tagUid, t ++ [Event.session tagUid])

/-- The constant noncedOverlayKey. -/
def noncedOverlayKey : String := "nonce-overlay"

/-- A storage.StateStorer as checkOverlay uses it.  The interface is an external
collaborator: it holds entries under string keys and may fail.  `calls` counts
the calls made on the store so far; `getFault n key` is the failure, if any, of
a `Get` of `key` made as call number `n` (an I/O or decoding error, reported as
a collaborator error, which is never storage.ErrNotFound), and `putFault n key`
the failure, if any, of a `Put`. -/
structure StateStore where
  entries : String → Option Address
  calls : Nat
  getFault : Nat → String → Option Nat
  putFault : Nat → String → Option Nat

/-- The method StateStorer.Get: the value or the error, and the store afterwards.
A missing key is reported with storage.ErrNotFound. -/
def StateStore.get (s : StateStore) (key : String) : Except Error Address × StateStore :=
  match s.getFault s.calls key with
  | some code => (Except.error (Error.collab code), { s with calls := s.calls + 1 })
  | none =>
    match s.entries key with
    | none => (Except.error ErrNotFound, { s with calls := s.calls + 1 })
    | some v => (Except.ok v, { s with calls := s.calls + 1 })

/-- The method StateStorer.Put: the error and the store afterwards.  A failing
`Put` writes nothing. -/
def StateStore.put (s : StateStore) (key : String) (v : Address) : Option Error × StateStore :=
  match s.putFault s.calls key with
  | some code => (some (Error.collab code), { s with calls := s.calls + 1 })
  | none =>
    (none, { s with
      calls := s.calls + 1
      entries := fun k => if k = key then some v else s.entries k })

/-- The function checkOverlay: the error and the store afterwards. -/
def checkOverlay (storer : StateStore) (overlay : Address) : Option Error × StateStore :=
  match storer.get noncedOverlayKey with
  | (Except.error err, s1) =>
    if !err.is ErrNotFound then
      (some err, s1)
    else
      s1.put noncedOverlayKey overlay
  | (Except.ok storedOverlay, s1) =>
    if storedOverlay ≠ overlay then
      (some (Error.new "overlay address changed"), s1)
    else
      (none, s1)

/-! ## `bytes.go` -/

/-- The method AddBytes.  Both `deferred` and `pin` are the constant `false`,
so the session-id branch is never taken and the tag is zero. -/
def AddBytes (bl : Beelite) (lib : Lib) (batchHex : String) (act : Bool)
    (historyAddress : Address) (encrypt : Bool) (rLevel : Nat) (reader : Reader)
    (t : Trace) : Ret × Trace :=
  if batchHex = "" then
    (⟨ZeroAddress, ZeroAddress, some (Error.new "batch is not set")⟩, t)
  else
    match lib.hexDecode batchHex with
    | Except.error _ => (⟨ZeroAddress, ZeroAddress, some errInvalidPostageBatch⟩, t)
    | Except.ok batch =>
      match newStamperPutter bl ⟨batch, 0, false, false⟩ t with
      | (Except.error err, t1) => (⟨ZeroAddress, ZeroAddress, some err⟩, t1)
      | (Except.ok putter, t1) =>
        let t2 := t1 ++ [Event.pipeline encrypt rLevel reader]
        match bl.feedPipeline t1 putter encrypt rLevel reader with
        | (reference, some err) =>
          (⟨reference, ZeroAddress, some (Error.wrap "(split write all) upload failed 1" err)⟩, t2)
        | (reference, none) =>
          -- encryptedReference := reference
          match actIfRequested bl putter act reference historyAddress t2 with
          | (⟨_, newHistoryAddress, some err⟩, t3) =>
            (⟨reference, newHistoryAddress, some err⟩, t3)
          | (⟨encryptedReference, newHistoryAddress, none⟩, t3) =>
            match putter.done t3 reference with
            | some err =>
              (⟨reference, newHistoryAddress,
                  some ((Error.wrap "(done split) upload failed 2" err).joinWith
                    (putter.cleanup (t3 ++ [Event.done reference])))⟩,
                t3 ++ [Event.done reference] ++ [Event.cleanup])
            | none =>
              -- reference = encryptedReference
              (⟨encryptedReference, newHistoryAddress, none⟩, t3 ++ [Event.done reference])

/-- The method GetBytes: the content read through the joiner, and the error. -/
def GetBytes (bl : Beelite) (reference : Address) (publisher : Option PublicKey)
    (historyAddress : Option Address) (timestamp : Option Int) (t : Trace) :
    (Option Bytes × Option Error) × Trace :=
  match actDecryptionHandler bl reference publisher historyAddress timestamp true t with
  | ((_, some err), t1) => ((none, some err), t1)
  | ((decryptedRef, none), t1) =>
    match bl.joinerNew t1 decryptedRef with
    | Except.error err =>
      if err.is ErrNotFound then
        ((none, some (Error.wrap "api download: not found " err)), t1 ++ [Event.joinerNew decryptedRef])
      else
        ((none, some (Error.fmtv "unexpected error" err)), t1 ++ [Event.joinerNew decryptedRef])
    | Except.ok content => ((some content, none), t1 ++ [Event.joinerNew decryptedRef])

/-! ## `chunk.go` -/

/-- The method GetChunk. -/
def GetChunk (bl : Beelite) (reference : Address) (publisher : Option PublicKey)
    (historyAddress : Option Address) (timestamp : Option Int) (t : Trace) :
    (Option Chunk × Option Error) × Trace :=
  match actDecryptionHandler bl reference publisher historyAddress timestamp true t with
  | ((_, some err), t1) => ((none, some err), t1)
  | ((decryptedRef, none), t1) =>
    match bl.storeGet t1 true decryptedRef with
    | Except.error err =>
      if err.is ErrNotFound then
        ((none, some (Error.new "chunk: chunk not found")), t1 ++ [Event.storeGet true decryptedRef])
      else
        ((none, some (Error.fmtv "chunk: chunk read error" err)),
          t1 ++ [Event.storeGet true decryptedRef])
    | Except.ok chunk => ((some chunk, none), t1 ++ [Event.storeGet true decryptedRef])

/-- Putter creation as written in AddChunk (chunk.go 49-71) and AddSOC (soc.go 56-82):
with a stamp signature the stamp is deserialised and newStampedPutter is used,
otherwise newStamperPutter. -/
def stampedOrStamperPutter (bl : Beelite) (lib : Lib) (stampSig batch : Bytes) (tag : Nat)
    (deferred pin : Bool) (t : Trace) : Except Error Putter × Trace :=
  if stampSig.length ≠ 0 then
    match lib.stampUnmarshal stampSig with
    | Except.error err => (Except.error err, t)
    | Except.ok stamp =>
      (bl.newStampedPutter t ⟨stamp.batchID, tag, deferred, pin⟩ stamp,
        t ++ [Event.newStampedPutter ⟨stamp.batchID, tag, deferred, pin⟩ stamp])
  else
    newStamperPutter bl ⟨batch, tag, deferred, pin⟩ t

/-- The statements `putter.Put(chunk)` and `putter.Done(chunk.Address())` that end
AddChunk (chunk.go 137-151) and AddSOC (soc.go 134-148), with the values the
named results hold at that point. -/
def putAndDone (putter : Putter) (chunk : Chunk) (reference newHistoryAddress : Address)
    (t : Trace) : Ret × Trace :=
  match putter.put t chunk with
  | some err => (⟨reference, newHistoryAddress, some err⟩, t ++ [Event.put chunk])
  | none =>
    match putter.done (t ++ [Event.put chunk]) chunk.address with
    | some err =>
      (⟨reference, newHistoryAddress,
          some ((Error.wrap "done split failed" err).joinWith
            (putter.cleanup (t ++ [Event.put chunk] ++ [Event.done chunk.address])))⟩,
        t ++ [Event.put chunk] ++ [Event.done chunk.address] ++ [Event.cleanup])
    | none =>
      (⟨reference, newHistoryAddress, none⟩, t ++ [Event.put chunk] ++ [Event.done chunk.address])

/-- The tail shared by AddChunk (chunk.go 128-151) and AddSOC (soc.go 125-148):
`reference = chunk.Address()`, the optional access-control wrapping, then Put and Done. -/
def uploadChunk (bl : Beelite) (putter : Putter) (act : Bool) (historyAddress : Address)
    (chunk : Chunk) (t : Trace) : Ret × Trace :=
  match actIfRequested bl putter act chunk.address historyAddress t with
  | (⟨reference, newHistoryAddress, some err⟩, t1) =>
    (⟨reference, newHistoryAddress, some err⟩, t1)
  | (⟨reference, newHistoryAddress, none⟩, t1) =>
    putAndDone putter chunk reference newHistoryAddress t1

/-- The method AddChunk. -/
def AddChunk (bl : Beelite) (lib : Lib) (batchHex : String) (stampSig : Bytes) (act : Bool)
    (historyAddress : Address) (reader : Reader) (swarmTag : Nat) (t : Trace) : Ret × Trace :=
  match lib.hexDecode batchHex with
  | Except.error _ => (⟨ZeroAddress, ZeroAddress, some errInvalidPostageBatch⟩, t)
  | Except.ok batch =>
    match (if swarmTag > 0 then getOrCreateSessionID bl swarmTag t else ((0, none), t)) with
    | ((_, some err), t1) => (⟨ZeroAddress, ZeroAddress, some err⟩, t1)
    | ((tag, none), t1) =>
      match stampedOrStamperPutter bl lib stampSig batch tag (tag != 0) false t1 with
      | (Except.error err, t2) => (⟨ZeroAddress, ZeroAddress, some err⟩, t2)
      | (Except.ok putter, t2) =>
        match reader.err with
        | some err => (⟨ZeroAddress, ZeroAddress, some err⟩, t2)
        | none =>
          if reader.data.length < SpanSize then
            (⟨ZeroAddress, ZeroAddress, some (Error.new "insufficient data length")⟩, t2)
          else
            match lib.cacNewWithDataSpan reader.data with
            | Except.ok chunk => uploadChunk bl putter act historyAddress chunk t2
            | Except.error _ =>
              match lib.socFromChunk ⟨EmptyAddress, reader.data⟩ with
              | Except.error err => (⟨ZeroAddress, ZeroAddress, some err⟩, t2)
              | Except.ok sch =>
                match lib.socChunk sch with
                | Except.error err => (⟨ZeroAddress, ZeroAddress, some err⟩, t2)
                | Except.ok chunk =>
                  if !lib.socValid chunk then
                    (⟨ZeroAddress, ZeroAddress, none⟩, t2)
                  else
                    uploadChunk bl putter act historyAddress chunk t2

/-! ## `soc.go` -/

/-- The method AddSOC.  `pin` is the constant `false`, so the tag is zero and the
upload is direct. -/
def AddSOC (bl : Beelite) (lib : Lib) (batchHex : String) (stampSig : Bytes) (act : Bool)
    (historyAddress : Address) (reader : Reader) (id owner sig : Bytes) (t : Trace) :
    Ret × Trace :=
  if batchHex = "" then
    (⟨ZeroAddress, ZeroAddress, some (Error.new "batch is not set")⟩, t)
  else
    match lib.hexDecode batchHex with
    | Except.error _ => (⟨ZeroAddress, ZeroAddress, some errInvalidPostageBatch⟩, t)
    | Except.ok batch =>
      match stampedOrStamperPutter bl lib stampSig batch 0 false false t with
      | (Except.error err, t1) => (⟨ZeroAddress, ZeroAddress, some err⟩, t1)
      | (Except.ok putter, t1) =>
        match reader.err with
        | some err => (⟨ZeroAddress, ZeroAddress, some err⟩, t1)
        | none =>
          if reader.data.length < SpanSize then
            (⟨ZeroAddress, ZeroAddress, some (Error.new "chunk data too short")⟩, t1)
          else if reader.data.length > ChunkSize + SpanSize then
            (⟨ZeroAddress, ZeroAddress, some (Error.new "chunk data exceeds required length")⟩, t1)
          else
            match lib.cacNewWithDataSpan reader.data with
            | Except.error err => (⟨ZeroAddress, ZeroAddress, some err⟩, t1)
            | Except.ok chunk =>
              match lib.socNewSigned id chunk owner sig with
              | Except.error err => (⟨ZeroAddress, ZeroAddress, some err⟩, t1)
              | Except.ok ss =>
                match lib.socChunk ss with
                | Except.error err => (⟨ZeroAddress, ZeroAddress, some err⟩, t1)
                | Except.ok sch =>
                  if !lib.socValid sch then
                    (⟨ZeroAddress, ZeroAddress, none⟩, t1)
                  else
                    uploadChunk bl putter act historyAddress sch t1

/-! ## `feed.go` -/

/-- The method AddFeed.  Both `deferred` and `pin` are the constant `false`. -/
def AddFeed (bl : Beelite) (lib : Lib) (batchHex owner topic : String) (act : Bool)
    (historyAddress : Address) (encrypt : Bool) (rLevel : Nat) (t : Trace) : Ret × Trace :=
  match lib.hexDecode owner with
  | Except.error err => (⟨ZeroAddress, ZeroAddress, some err⟩, t)
  | Except.ok ownerB =>
    match lib.hexDecode topic with
    | Except.error err => (⟨ZeroAddress, ZeroAddress, some err⟩, t)
    | Except.ok topicB =>
      if batchHex = "" then
        (⟨ZeroAddress, ZeroAddress, some (Error.new "batch is not set")⟩, t)
      else
        match lib.hexDecode batchHex with
        | Except.error _ => (⟨ZeroAddress, ZeroAddress, some errInvalidPostageBatch⟩, t)
        | Except.ok batch =>
          match newStamperPutter bl ⟨batch, 0, false, false⟩ t with
          | (Except.error err, t1) => (⟨ZeroAddress, ZeroAddress, some err⟩, t1)
          | (Except.ok putter, t1) =>
            match bl.manifestNew t1 putter encrypt rLevel with
            | some err =>
              (⟨ZeroAddress, ZeroAddress, some err⟩, t1 ++ [Event.manifestNew encrypt rLevel])
            | none =>
              let t2 := t1 ++ [Event.manifestNew encrypt rLevel]
              match bl.manifestAdd t2 ownerB topicB with
              | some err =>
                (⟨ZeroAddress, ZeroAddress, some err⟩, t2 ++ [Event.manifestAdd ownerB topicB])
              | none =>
                let t3 := t2 ++ [Event.manifestAdd ownerB topicB]
                let t4 := t3 ++ [Event.manifestStore]
                match bl.manifestStore t3 with
                | (reference, some err) => (⟨reference, ZeroAddress, some err⟩, t4)
                | (stored, none) =>
                  -- encryptedReference := reference
                  match actIfRequested bl putter act stored historyAddress t4 with
                  | (⟨reference, newHistoryAddress, some err⟩, t5) =>
                    (⟨reference, newHistoryAddress, some err⟩, t5)
                  | (⟨reference, newHistoryAddress, none⟩, t5) =>
                    match putter.done t5 reference with
                    | some err =>
                      (⟨reference, newHistoryAddress,
                          some ((Error.wrap "done split failed" err).joinWith
                            (putter.cleanup (t5 ++ [Event.done reference])))⟩,
                        t5 ++ [Event.done reference] ++ [Event.cleanup])
                    | none =>
                      -- reference = encryptedReference
                      (⟨stored, newHistoryAddress, none⟩, t5 ++ [Event.done reference])

/-- The method FeedGetHandler; `atTime` is the parameter `at`. -/
def FeedGetHandler (bl : Beelite) (owner topic : Bytes) (atTime : Int) (after : Nat)
    (t : Trace) : (Address × Option Error) × Trace :=
  let at1 := if atTime = 0 then bl.now else atTime
  match bl.newLookup t topic owner with
  | some err => ((ZeroAddress, some err), t ++ [Event.newLookup topic owner])
  | none =>
    let t1 := t ++ [Event.newLookup topic owner]
    match bl.lookupAt t1 topic owner at1 after with
    | Except.error err =>
      ((ZeroAddress, some err), t1 ++ [Event.lookupAt topic owner at1 after])
    | Except.ok none =>
      -- KLUDGE: if a feed was never updated, the chunk will be nil
      ((ZeroAddress, none), t1 ++ [Event.lookupAt topic owner at1 after])
    | Except.ok (some ch) =>
      let t2 := t1 ++ [Event.lookupAt topic owner at1 after]
      match bl.getWrappedChunk t2 ch with
      | Except.error _ => ((ZeroAddress, none), t2 ++ [Event.getWrappedChunk ch])
      | Except.ok wc => ((wc.address, none), t2 ++ [Event.getWrappedChunk ch])

/-! ## `grantee.go` -/

/-- The loop of parseKeys: `acc` is `parsedList` so far. -/
def parseKeysLoop (lib : Lib) : List String → List PublicKey → List PublicKey × Option Error
  | [], acc => (acc, none)
  | g :: rest, acc =>
    match lib.hexDecode g with
    | Except.error err => ([], some (Error.wrap "failed to decode grantee" err))
    | Except.ok h =>
      match lib.parsePubKey h with
      | Except.error err => ([], some (Error.wrap "failed to parse grantee public key" err))
      | Except.ok k => parseKeysLoop lib rest (acc ++ [k])

/-- The function parseKeys; ranging over a nil slice runs no iteration. -/
def parseKeys (lib : Lib) (list : Option (List String)) : List PublicKey × Option Error :=
  parseKeysLoop lib (list.getD []) []

/-- The method GetGranteeList. -/
def GetGranteeList (bl : Beelite) (lib : Lib) (encryptedglRef : Address) (_cache : Bool)
    (t : Trace) : (Option (List String) × Option Error) × Trace :=
  match bl.accessGet t bl.publicKey encryptedglRef with
  | Except.error err => ((none, some err), t ++ [Event.accessGet bl.publicKey encryptedglRef])
  | Except.ok grantees =>
    ((some (grantees.map lib.encodePubKeyHex), none),
      t ++ [Event.accessGet bl.publicKey encryptedglRef])

/-- The three `putter.Done` calls that end AddRevokeGrantees (grantee.go 91-109) and
CreateGrantees (grantee.go 156-174). -/
def doneGranteeRoots (putter : Putter)
    (granteeref encryptedglref historyref actref : Address) (t : Trace) : Ret × Trace :=
  match putter.done t actref with
  | some err => (⟨ZeroAddress, ZeroAddress, some err⟩, t ++ [Event.done actref])
  | none =>
    match putter.done (t ++ [Event.done actref]) historyref with
    | some err =>
      (⟨ZeroAddress, ZeroAddress, some err⟩, t ++ [Event.done actref] ++ [Event.done historyref])
    | none =>
      match putter.done (t ++ [Event.done actref] ++ [Event.done historyref]) granteeref with
      | some err =>
        (⟨ZeroAddress, ZeroAddress, some err⟩,
          t ++ [Event.done actref] ++ [Event.done historyref] ++ [Event.done granteeref])
      | none =>
        (⟨encryptedglref, historyref, none⟩,
          t ++ [Event.done actref] ++ [Event.done historyref] ++ [Event.done granteeref])

/-- The method AddRevokeGrantees; the results are the encrypted grantee-list
reference and the history reference. -/
def AddRevokeGrantees (bl : Beelite) (lib : Lib) (batchHex : String)
    (granteesAddress historyAddress : Address) (addlist revokelist : Option (List String))
    (t : Trace) : Ret × Trace :=
  if addlist.isNone && revokelist.isNone then
    (⟨ZeroAddress, ZeroAddress, some (Error.new "nothing to add or remove")⟩, t)
  else
    match parseKeys lib addlist with
    | (_, some err) => (⟨ZeroAddress, ZeroAddress, some err⟩, t)
    | (parsedAddlist, none) =>
      match parseKeys lib revokelist with
      | (_, some err) => (⟨ZeroAddress, ZeroAddress, some err⟩, t)
      | (parsedRevokelist, none) =>
        match lib.hexDecode batchHex with
        | Except.error _ => (⟨ZeroAddress, ZeroAddress, some errInvalidPostageBatch⟩, t)
        | Except.ok batch =>
          match newStamperPutter bl ⟨batch, 0, false, false⟩ t with
          | (Except.error err, t1) => (⟨ZeroAddress, ZeroAddress, some err⟩, t1)
          | (Except.ok putter, t1) =>
            let t2 := t1 ++ [Event.updateHandler granteesAddress historyAddress bl.publicKey
              (some parsedAddlist) (some parsedRevokelist)]
            match bl.updateHandler t1 putter granteesAddress historyAddress bl.publicKey
                (some parsedAddlist) (some parsedRevokelist) with
            | Except.error err => (⟨ZeroAddress, ZeroAddress, some err⟩, t2)
            | Except.ok (granteeref, encryptedglref, historyref, actref) =>
              doneGranteeRoots putter granteeref encryptedglref historyref actref t2

/-- The method CreateGrantees. -/
def CreateGrantees (bl : Beelite) (lib : Lib) (batchHex : String) (historyAddress : Address)
    (granteeList : Option (List String)) (t : Trace) : Ret × Trace :=
  if granteeList.isNone then
    (⟨ZeroAddress, ZeroAddress, some (Error.new "nothing to create")⟩, t)
  else
    match lib.hexDecode batchHex with
    | Except.error _ => (⟨ZeroAddress, ZeroAddress, some errInvalidPostageBatch⟩, t)
    | Except.ok batch =>
      match newStamperPutter bl ⟨batch, 0, false, false⟩ t with
      | (Except.error err, t1) => (⟨ZeroAddress, ZeroAddress, some err⟩, t1)
      | (Except.ok putter, t1) =>
        match parseKeys lib granteeList with
        | (_, some err) => (⟨ZeroAddress, ZeroAddress, some err⟩, t1)
        | (list, none) =>
          let t2 := t1 ++ [Event.updateHandler ZeroAddress historyAddress bl.publicKey
            (some list) none]
          match bl.updateHandler t1 putter ZeroAddress historyAddress bl.publicKey
              (some list) none with
          | Except.error err => (⟨ZeroAddress, ZeroAddress, some err⟩, t2)
          | Except.ok (granteeref, encryptedglref, historyref, actref) =>
            doneGranteeRoots putter granteeref encryptedglref historyref actref t2

/-! ## Concrete collaborators

A small deterministic library and node on which the entry points can be
evaluated. -/

/-- The value of one hexadecimal digit. -/
def hexDigit (c : Char) : Option Nat :=
  if 48 ≤ c.toNat ∧ c.toNat ≤ 57 then some (c.toNat - 48)
  else if 97 ≤ c.toNat ∧ c.toNat ≤ 102 then some (c.toNat - 87)
  else if 65 ≤ c.toNat ∧ c.toNat ≤ 70 then some (c.toNat - 55)
  else none

/-- Decoding of a list of hexadecimal digits, two per byte. -/
def hexDecodeChars : List Char → Except Error Bytes
  | [] => Except.ok []
  | [_] => Except.error (Error.new "encoding/hex: odd length hex string")
  | a :: b :: rest =>
    match hexDigit a, hexDigit b, hexDecodeChars rest with
    | some x, some y, Except.ok bs => Except.ok ((16 * x + y) :: bs)
    | some _, some _, Except.error e => Except.error e
    | _, _, _ => Except.error (Error.new "encoding/hex: invalid byte")

/-- A stand-in for the chunk hash: the length and the byte sum. -/
def sampleHash (data : Bytes) : Address := [data.length % 256, data.sum % 256]

/-- The constant crypto.AddressSize: the length of an owner address. -/
def AddressSize : Nat := 20

/-- The constant swarm.HashSize: the length of a single-owner chunk id. -/
def HashSize : Nat := 32

/-- The constant swarm.SocSignatureSize. -/
def SocSignatureSize : Nat := 65

/-- The constant swarm.SocMinChunkSize: id, signature and span. -/
def SocMinChunkSize : Nat := HashSize + SocSignatureSize + SpanSize

/-- The constant postage.StampSize. -/
def StampSize : Nat := 113

/-- The value swarm.ReplicasOwner, the owner address of dispersed replicas. -/
def ReplicasOwner : Bytes :=
  [220, 91, 32, 132, 127, 67, 214, 121, 40, 244, 156, 212, 248, 93, 105, 107, 90, 118, 23, 181]

/-- The big-endian value of a byte string. -/
def bytesToNat (b : Bytes) : Nat := b.foldl (fun acc x => acc * 256 + x) 0

/-- The 32-byte big-endian encoding of a number. -/
def natToBytes32 (n : Nat) : Bytes := (List.range 32).map (fun i => n / 256 ^ (31 - i) % 256)

/-- The two lower-case hexadecimal digits of each byte. -/
def hexEncode (b : Bytes) : String :=
  String.mk (b.flatMap (fun x => [(Nat.toDigits 16 (x / 16 % 16)).headD '0',
    (Nat.toDigits 16 (x % 16)).headD '0']))

/-- The field prime of secp256k1. -/
def secp256k1P : Nat :=
  115792089237316195423570985008687907853269984665640564039457584007908834671663

/-- The power `b ^ e` modulo `m` by squaring; the first argument bounds the
number of bits of `e`. -/
def powMod (m b : Nat) : Nat → Nat → Nat
  | 0, _ => 1 % m
  | fuel + 1, e =>
    if e = 0 then 1 % m
    else
      let h := powMod m b fuel (e / 2)
      if e % 2 = 1 then h * h % m * b % m else h * h % m

/-- The sample btcec.ParsePubKey followed by ToECDSA: a compressed (prefix 2 or
3), uncompressed (prefix 4) or hybrid (prefix 6 or 7) encoding of a point on
secp256k1; anything else, and any point off the curve, is refused. -/
def sampleParsePubKey (b : Bytes) : Except Error PublicKey :=
  match b with
  | [] => Except.error (Error.new "malformed public key: invalid length: 0")
  | fmt :: rest =>
    if (fmt = 2 ∨ fmt = 3) ∧ rest.length = 32 then
      let x := bytesToNat rest
      let y2 := (x * x % secp256k1P * x + 7) % secp256k1P
      let y := powMod secp256k1P y2 256 ((secp256k1P + 1) / 4)
      if x < secp256k1P ∧ y * y % secp256k1P = y2 then
        Except.ok ⟨x, if y % 2 = fmt % 2 then y else secp256k1P - y⟩
      else
        Except.error (Error.new "invalid public key: x coordinate is not on the secp256k1 curve")
    else if (fmt = 4 ∨ fmt = 6 ∨ fmt = 7) ∧ rest.length = 64 then
      let x := bytesToNat (rest.take 32)
      let y := bytesToNat (rest.drop 32)
      if x < secp256k1P ∧ y < secp256k1P ∧
          y * y % secp256k1P = (x * x % secp256k1P * x + 7) % secp256k1P ∧
          (fmt = 4 ∨ y % 2 = fmt % 2) then
        Except.ok ⟨x, y⟩
      else
        Except.error (Error.new "invalid public key: not on the secp256k1 curve")
    else
      Except.error (Error.new "malformed public key: invalid length or format")

/-- The sample crypto.EncodeSecp256k1PublicKey followed by hex.EncodeToString:
the compressed encoding in hexadecimal. -/
def sampleEncodePubKeyHex (k : PublicKey) : String :=
  hexEncode ((2 + k.y % 2) :: natToBytes32 k.x)

/-- The sample cac.NewWithDataSpan: between SpanSize and ChunkSize + SpanSize
bytes, addressed by the stand-in hash. -/
def sampleCac (data : Bytes) : Except Error Chunk :=
  if data.length < SpanSize then Except.error (Error.new "short chunk data")
  else if data.length > ChunkSize + SpanSize then Except.error (Error.new "data too large")
  else Except.ok ⟨sampleHash data, data⟩

/-- A stand-in for a recoverable signature of `owner` over `digest`: the owner
address followed by the digest padded to 45 bytes. -/
def sampleSign (owner digest : Bytes) : Bytes :=
  owner ++ (digest ++ List.replicate 45 0).take 45

/-- The sample signature recovery: the first 20 bytes of a 65-byte signature
whose remaining bytes carry the digest; any other signature is refused. -/
def sampleRecover (sig digest : Bytes) : Except Error Bytes :=
  if sig.length = SocSignatureSize ∧
      sig.drop AddressSize = (digest ++ List.replicate 45 0).take 45 then
    Except.ok (sig.take AddressSize)
  else
    Except.error (Error.new "invalid signature")

/-- The sample (*soc.SOC).Address: the hash of id and owner; an owner that is not
20 bytes long is refused. -/
def sampleSocAddress (id owner : Bytes) : Except Error Address :=
  if owner.length ≠ AddressSize then Except.error (Error.new "soc: invalid address")
  else Except.ok (sampleHash (id ++ owner))

/-- The sample soc.NewSigned: an owner that is not 20 bytes long is refused. -/
def sampleSocNewSigned (id : Bytes) (c : Chunk) (owner sig : Bytes) : Except Error SOC :=
  if owner.length ≠ AddressSize then Except.error (Error.new "soc: invalid address")
  else Except.ok ⟨id, owner, sig, c⟩

/-- The sample (*soc.SOC).Chunk: the address of the single-owner chunk over the
envelope id, signature, wrapped chunk data. -/
def sampleSocChunk (s : SOC) : Except Error Chunk :=
  match sampleSocAddress s.id s.owner with
  | Except.error e => Except.error e
  | Except.ok a => Except.ok ⟨a, s.id ++ s.signature ++ s.inner.data⟩

/-- The sample soc.FromChunk: the envelope must hold at least id, signature and
span, the wrapped data must be a content-addressed chunk and the owner must be
recoverable from the signature over id and wrapped address. -/
def sampleSocFromChunk (c : Chunk) : Except Error SOC :=
  if c.data.length < SocMinChunkSize then Except.error (Error.new "soc: chunk size too small")
  else
    match sampleCac (c.data.drop (HashSize + SocSignatureSize)) with
    | Except.error e => Except.error e
    | Except.ok inner =>
      match sampleRecover ((c.data.drop HashSize).take SocSignatureSize)
          (sampleHash (c.data.take HashSize ++ inner.address)) with
      | Except.error e => Except.error e
      | Except.ok owner =>
        Except.ok ⟨c.data.take HashSize, owner, (c.data.drop HashSize).take SocSignatureSize,
          inner⟩

/-- The sample soc.Valid: the envelope parses, a chunk of the replicas owner has
an id matching the wrapped address from the second byte on, and the chunk
address is the one of id and recovered owner. -/
def sampleSocValid (c : Chunk) : Bool :=
  match sampleSocFromChunk c with
  | Except.error _ => false
  | Except.ok s =>
    if s.owner == ReplicasOwner && s.inner.address.drop 1 != s.id.drop 1 then false
    else
      match sampleSocAddress s.id s.owner with
      | Except.error _ => false
      | Except.ok a => c.address == a

/-- A sample library that refuses what the real functions refuse: real hex
decoding, the length rules of cac.NewWithDataSpan, soc.NewSigned, soc.FromChunk
and postage stamps, and public keys that are points on secp256k1.  The hash and
the signature scheme are stand-ins. -/
def sampleLib : Lib where
  hexDecode := fun s => hexDecodeChars s.toList
  cacNewWithDataSpan := sampleCac
  socFromChunk := sampleSocFromChunk
  socNewSigned := sampleSocNewSigned
  socChunk := sampleSocChunk
  socValid := sampleSocValid
  stampUnmarshal := fun b =>
    if b.length ≠ StampSize then Except.error (Error.new "invalid stamp")
    else Except.ok ⟨b.take HashSize, b⟩
  parsePubKey := sampleParsePubKey
  encodePubKeyHex := sampleEncodePubKeyHex

/-- A 32-byte single-owner chunk id. -/
def sampleId : Bytes := List.replicate 32 1

/-- A 20-byte owner address. -/
def sampleOwner : Bytes := List.replicate 20 2

/-- The compressed encoding, in hexadecimal, of the generator point of secp256k1,
the public key of the private key 1. -/
def sampleKeyHex : String :=
  "0279be667ef9dcbbac55a06295ce870b07029bfcdb2dce28d959f2815b16f81798"

/-- The generator point of secp256k1. -/
def sampleKey : PublicKey :=
  ⟨55066263022277343669578718895168534326250603453777594175500187360389116729240,
    32670510020758816978083085130507043184471273380659243275938904335757337482424⟩

/-- A single-owner envelope of 4105 bytes: id, a signature of the replicas owner
over the id and the wrapped address `[168, 0]`, and a wrapped chunk of 4008
bytes.  It is too long for a content-addressed chunk, and its id does not match
the wrapped address. -/
def sampleReplicaEnvelope : Bytes :=
  sampleId ++ sampleSign ReplicasOwner [34, 200] ++ List.replicate 4008 0

/-- A putter on which every call succeeds. -/
def okPutter : Putter where
  put := fun _ _ => none
  done := fun _ _ => none
  cleanup := fun _ => none

/-- A putter whose every `Done` fails with collaborator error 1 and whose `Cleanup`
fails with collaborator error 2. -/
def doneFailsPutter : Putter where
  put := fun _ _ => none
  done := fun _ _ => some (Error.collab 1)
  cleanup := fun _ => some (Error.collab 2)

/-- A putter whose `Put` fails with collaborator error 3. -/
def putFailsPutter : Putter where
  put := fun _ _ => some (Error.collab 3)
  done := fun _ _ => none
  cleanup := fun _ => none

/-- A node on which every collaborator succeeds.  The access-control upload
returns a fresh history root on a zero prior root and the prior root otherwise. -/
def okNode : Beelite where
  publicKey := ⟨1, 2⟩
  devMode := false
  now := 1000
  batchExists := fun _ _ => Except.ok true
  getStampIssuer := fun _ _ => Except.ok (⟨1⟩, fun _ => none)
  issuerUsable := fun _ _ => true
  upload := fun _ _ _ => Except.ok okPutter
  directUpload := fun _ => okPutter
  newSession := fun _ => (1, none)
  session := fun _ tag => (tag, none)
  wrapSession := fun session _ _ => session
  newStampedPutter := fun _ _ _ => Except.ok okPutter
  feedPipeline := fun _ _ _ _ reader => (sampleHash reader.data, none)
  manifestNew := fun _ _ _ _ => none
  manifestAdd := fun _ _ _ => none
  manifestStore := fun _ => ([9, 9], none)
  uploadHandler := fun _ _ reference _ history =>
    Except.ok (101 :: reference, if history = ZeroAddress then 102 :: reference else history,
      103 :: reference)
  updateHandler := fun _ _ grantees history _ _ _ =>
    Except.ok (grantees, 201 :: grantees, history, 203 :: grantees)
  downloadHandler := fun _ reference _ _ _ => Except.ok (reference.drop 1)
  accessGet := fun _ _ _ => Except.ok []
  storeGet := fun _ _ a => Except.ok ⟨a, a⟩
  joinerNew := fun _ a => Except.ok a
  newLookup := fun _ _ _ => none
  lookupAt := fun _ topic owner _ _ => Except.ok (some ⟨sampleHash (topic ++ owner), topic ++ owner⟩)
  getWrappedChunk := fun _ ch => Except.ok ⟨sampleHash ch.data, ch.data⟩

/-- The addresses on which `Done` was called, in call order. -/
def doneCalls : Trace → List Address
  | [] => []
  | Event.done a :: rest => a :: doneCalls rest
  | _ :: rest => doneCalls rest

/-- The sample node with a split pipeline that fails with collaborator error 4. -/
def pipelineFailsNode : Beelite :=
  { okNode with feedPipeline := fun _ _ _ _ _ => (ZeroAddress, some (Error.collab 4)) }

/-- The sample node handing out a session whose `Put` fails. -/
def putFailsNode : Beelite :=
  { okNode with directUpload := fun _ => putFailsPutter }

/-- The sample node handing out a session whose `Done` and `Cleanup` fail. -/
def doneFailsNode : Beelite :=
  { okNode with directUpload := fun _ => doneFailsPutter }

/-- The sample node whose batch store does not know the batch and whose postage
service has no issuer for it: the issuer lookup fails with collaborator error 5. -/
def issuerMissingNode : Beelite :=
  { okNode with
    batchExists := fun _ _ => Except.ok false
    getStampIssuer := fun _ _ => Except.error (Error.collab 5) }

/-- The sample node whose batch store does not know the batch while the postage
service still has an issuer for it. -/
def batchMissingNode : Beelite :=
  { okNode with batchExists := fun _ _ => Except.ok false }

/-- The sample node running in dev mode. -/
def devNode : Beelite :=
  { okNode with devMode := true }

/-- Whether the event is a `Put` or a `Done` on a putter session. -/
def Event.isPutOrDone : Event → Bool
  | Event.put _ => true
  | Event.done _ => true
  | _ => false

/-- The sample node whose feed was never updated: the lookup finds no chunk. -/
def neverUpdatedNode : Beelite :=
  { okNode with lookupAt := fun _ _ _ _ _ => Except.ok none }

/-- The sample node on which the wrapped chunk of a found update cannot be
retrieved: feeds.GetWrappedChunk fails with collaborator error 7. -/
def wrappedFailsNode : Beelite :=
  { okNode with getWrappedChunk := fun _ _ => Except.error (Error.collab 7) }

/-- The sample node whose access-control upload fails with collaborator error 6. -/
def uploadFailsNode : Beelite :=
  { okNode with uploadHandler := fun _ _ _ _ _ => Except.error (Error.collab 6) }

/-- What one entry of the list contributes in parseKeys, as one step of its loop:
the key parsed from the entry, or the error the entry raises. -/
def parseKey (lib : Lib) (g : String) : Except Error PublicKey :=
  match lib.hexDecode g with
  | Except.error err => Except.error (Error.wrap "failed to decode grantee" err)
  | Except.ok h =>
    match lib.parsePubKey h with
    | Except.error err => Except.error (Error.wrap "failed to parse grantee public key" err)
    | Except.ok k => Except.ok k

/-- A state store with no entry at all that never fails. -/
def emptyStore : StateStore := ⟨fun _ => none, 0, fun _ _ => none, fun _ _ => none⟩

/-- A state store with no entry at all whose every `Put` fails with collaborator
error 9. -/
def putFailsStore : StateStore := ⟨fun _ => none, 0, fun _ _ => none, fun _ _ => some 9⟩

/-- A state store holding the overlay `[1, 2]` whose every `Get` fails with
collaborator error 8. -/
def getFailsStore : StateStore :=
  ⟨fun k => if k = noncedOverlayKey then some [1, 2] else none, 0, fun _ _ => some 8,
    fun _ _ => none⟩

/-- The store after a run of checkOverlay calls, one per overlay of the list. -/
def checkOverlays (storer : StateStore) (overlays : List Address) : StateStore :=
  overlays.foldl (fun st o => (checkOverlay st o).2) storer

/-! ## Path conditions

What it means for a run of a write entry point to get as far as its
access-control step: every check before it passed, the putter `p` was obtained
at trace `t1`, and the content root or chunk is known. -/

/-- AddBytes obtained putter `p` at trace `t1` and its split pipeline returned
the root `ref` without error. -/
def AddBytesReaches (bl : Beelite) (lib : Lib) (batchHex : String) (encrypt : Bool)
    (rLevel : Nat) (reader : Reader) (t : Trace) (p : Putter) (t1 : Trace) (ref : Address) :
    Prop :=
  batchHex ≠ "" ∧ ∃ batch, lib.hexDecode batchHex = Except.ok batch ∧
    newStamperPutter bl ⟨batch, 0, false, false⟩ t = (Except.ok p, t1) ∧
    bl.feedPipeline t1 p encrypt rLevel reader = (ref, none)

/-- AddFeed obtained putter `p`, built the manifest and added the feed entry,
reaching trace `t3`, and storing the manifest at `t3` returned the root `stored`
without error. -/
def AddFeedReaches (bl : Beelite) (lib : Lib) (batchHex owner topic : String) (encrypt : Bool)
    (rLevel : Nat) (t : Trace) (p : Putter) (t3 : Trace) (stored : Address) : Prop :=
  batchHex ≠ "" ∧ ∃ ownerB topicB batch t1, lib.hexDecode owner = Except.ok ownerB ∧
    lib.hexDecode topic = Except.ok topicB ∧ lib.hexDecode batchHex = Except.ok batch ∧
    newStamperPutter bl ⟨batch, 0, false, false⟩ t = (Except.ok p, t1) ∧
    bl.manifestNew t1 p encrypt rLevel = none ∧
    bl.manifestAdd (t1 ++ [Event.manifestNew encrypt rLevel]) ownerB topicB = none ∧
    t3 = t1 ++ [Event.manifestNew encrypt rLevel] ++ [Event.manifestAdd ownerB topicB] ∧
    bl.manifestStore t3 = (stored, none)

/-- AddChunk obtained putter `p` at trace `t2`, read its data and built the chunk
`chunk`, either as a content-addressed chunk or, failing that, as a valid
single-owner chunk. -/
def AddChunkReaches (bl : Beelite) (lib : Lib) (batchHex : String) (stampSig : Bytes)
    (reader : Reader) (swarmTag : Nat) (t : Trace) (p : Putter) (t2 : Trace) (chunk : Chunk) :
    Prop :=
  ∃ batch tag t1, lib.hexDecode batchHex = Except.ok batch ∧
    (if swarmTag > 0 then getOrCreateSessionID bl swarmTag t else ((0, none), t))
      = ((tag, none), t1) ∧
    stampedOrStamperPutter bl lib stampSig batch tag (tag != 0) false t1 = (Except.ok p, t2) ∧
    reader.err = none ∧ SpanSize ≤ reader.data.length ∧
    (lib.cacNewWithDataSpan reader.data = Except.ok chunk ∨
      ∃ e sch, lib.cacNewWithDataSpan reader.data = Except.error e ∧
        lib.socFromChunk ⟨EmptyAddress, reader.data⟩ = Except.ok sch ∧
        lib.socChunk sch = Except.ok chunk ∧ lib.socValid chunk = true)

/-- AddSOC obtained putter `p` at trace `t1`, read its data and built the valid
single-owner chunk `sch`. -/
def AddSOCReaches (bl : Beelite) (lib : Lib) (batchHex : String) (stampSig : Bytes)
    (reader : Reader) (id owner sig : Bytes) (t : Trace) (p : Putter) (t1 : Trace)
    (sch : Chunk) : Prop :=
  batchHex ≠ "" ∧ ∃ batch chunk ss, lib.hexDecode batchHex = Except.ok batch ∧
    stampedOrStamperPutter bl lib stampSig batch 0 false false t = (Except.ok p, t1) ∧
    reader.err = none ∧ SpanSize ≤ reader.data.length ∧
    reader.data.length ≤ ChunkSize + SpanSize ∧
    lib.cacNewWithDataSpan reader.data = Except.ok chunk ∧
    lib.socNewSigned id chunk owner sig = Except.ok ss ∧
    lib.socChunk ss = Except.ok sch ∧ lib.socValid sch = true

/-! ## Theorems -/

/-! ### AddRevokeGrantees with nothing to add or remove -/

/-- With both lists nil the call is rejected before any collaborator is touched. -/
theorem AddRevokeGrantees_nil_lists_rejected (bl : Beelite) (lib : Lib) (batchHex : String)
    (granteesAddress historyAddress : Address) (t : Trace) :
    AddRevokeGrantees bl lib batchHex granteesAddress historyAddress none none t =
      (⟨ZeroAddress, ZeroAddress, some (Error.new "nothing to add or remove")⟩, t) := by
  simp [AddRevokeGrantees]

/-- C1 (defect in the code): AddRevokeGrantees called with two non-nil empty
slices is not rejected.  On a node whose collaborators succeed it opens a direct
upload session, calls UpdateHandler with two empty key lists, calls Done three
times and returns a nil error with non-zero addresses. -/
theorem AddRevokeGrantees_empty_slices_not_rejected :
    AddRevokeGrantees okNode sampleLib "aa" [5] [6] (some []) (some []) [] =
      (⟨[201, 5], [6], none⟩,
        [Event.batchExists [170], Event.getStampIssuer [170], Event.issuerUsable ⟨1⟩,
          Event.directUpload,
          Event.updateHandler [5] [6] ⟨1, 2⟩ (some []) (some []),
          Event.done [203, 5], Event.done [6], Event.done [5]]) := by
  decide

/-! ### actEncryptionHandler: which roots are finalized -/

/-- C2 (as stated, refuted): UploadHandler succeeds and returns a history root
`[102, 7]` different from the supplied zero root, the first Done fails, and Done
has been called once only, on the storage reference; the history reference is
never finalized. -/
theorem actEncryptionHandler_one_done_when_first_fails :
    okNode.uploadHandler [] doneFailsPutter [7] okNode.publicKey ZeroAddress
        = Except.ok ([101, 7], [102, 7], [103, 7]) ∧
      ([102, 7] : Address) ≠ ZeroAddress ∧
      doneCalls (actEncryptionHandler okNode doneFailsPutter [7] ZeroAddress []).2 = [[101, 7]] ∧
      doneCalls (actEncryptionHandler okNode doneFailsPutter [7] ZeroAddress []).2
        ≠ [[101, 7], [102, 7]] :=
  ⟨rfl, by decide, by decide, by decide⟩

/-- C2 (amended): when UploadHandler succeeds with storage reference `s`, history
reference `h` and encrypted reference `e`: if `h` equals the supplied history
root no Done call is made and the result is `(e, h, nil)`; otherwise Done is
called on `s` first and, only if that call succeeds, on `h` next, so exactly
twice unless the first Done fails; the result is `(e, h, nil)` when no Done
fails and two zero addresses with the wrapped Done error when one does. -/
theorem actEncryptionHandler_done_calls (bl : Beelite) (putter : Putter)
    (reference historyRootHash : Address) (t : Trace) (s h e : Address)
    (hup : bl.uploadHandler t putter reference bl.publicKey historyRootHash
      = Except.ok (s, h, e)) :
    (h = historyRootHash →
      actEncryptionHandler bl putter reference historyRootHash t =
        (⟨e, h, none⟩, t ++ [Event.uploadHandler reference bl.publicKey historyRootHash])) ∧
    (h ≠ historyRootHash →
      (∀ err, putter.done (t ++ [Event.uploadHandler reference bl.publicKey historyRootHash]) s
          = some err →
        actEncryptionHandler bl putter reference historyRootHash t =
          (⟨ZeroAddress, ZeroAddress,
              some (Error.wrap "done split key-value store failed" err)⟩,
            t ++ [Event.uploadHandler reference bl.publicKey historyRootHash, Event.done s])) ∧
      (putter.done (t ++ [Event.uploadHandler reference bl.publicKey historyRootHash]) s
          = none →
        (actEncryptionHandler bl putter reference historyRootHash t).2 =
            t ++ [Event.uploadHandler reference bl.publicKey historyRootHash,
              Event.done s, Event.done h] ∧
          (∀ err, putter.done (t ++ [Event.uploadHandler reference bl.publicKey historyRootHash,
                Event.done s]) h = some err →
            (actEncryptionHandler bl putter reference historyRootHash t).1 =
              ⟨ZeroAddress, ZeroAddress, some (Error.wrap "done split history failed" err)⟩) ∧
          (putter.done (t ++ [Event.uploadHandler reference bl.publicKey historyRootHash,
                Event.done s]) h = none →
            (actEncryptionHandler bl putter reference historyRootHash t).1 = ⟨e, h, none⟩))) := by
  refine ⟨?_, ?_⟩
  · intro heq
    simp [actEncryptionHandler, hup, heq]
  · intro hne
    refine ⟨?_, ?_⟩
    · intro err hd
      simp [actEncryptionHandler, hup, hne, hd]
    · intro hd
      refine ⟨?_, ?_, ?_⟩
      · simp only [actEncryptionHandler, hup, hd]
        cases h2 : putter.done (t ++ [Event.uploadHandler reference bl.publicKey historyRootHash]
            ++ [Event.done s]) h <;> simp [hne]
      · intro err h2
        simp [actEncryptionHandler, hup, hne, hd, h2]
      · intro h2
        simp [actEncryptionHandler, hup, hne, hd, h2]

/-- C2 (amended), instance: on the sample node a first protected upload with a
zero prior history root finalizes the two new roots, storage root first, and
returns the encrypted and the history reference. -/
theorem actEncryptionHandler_done_calls_witness :
    okNode.uploadHandler [] okPutter [7] okNode.publicKey ZeroAddress
        = Except.ok ([101, 7], [102, 7], [103, 7]) ∧
      (actEncryptionHandler okNode okPutter [7] ZeroAddress []).2 =
        [] ++ [Event.uploadHandler [7] okNode.publicKey ZeroAddress,
          Event.done [101, 7], Event.done [102, 7]] ∧
      (actEncryptionHandler okNode okPutter [7] ZeroAddress []).1 = ⟨[103, 7], [102, 7], none⟩ :=
  have H := ((actEncryptionHandler_done_calls okNode okPutter [7] ZeroAddress []
    [101, 7] [102, 7] [103, 7] rfl).2 (by decide)).2 rfl
  ⟨rfl, H.1, H.2.2 rfl⟩
/-! ### AddFeed under access control -/

/-- C3 (defect in the code): AddFeed with act = true returns the plain manifest
root `[9, 9]` it stored, not the encrypted reference `[103, 9, 9]` that
actEncryptionHandler returned for that root; AddBytes on the same node returns
the encrypted reference of its plain root `[3, 6]`. -/
theorem AddFeed_act_returns_plain_root :
    (AddFeed okNode sampleLib "aa" "bb" "cc" true ZeroAddress false 0 []).1
        = ⟨[9, 9], [102, 9, 9], none⟩ ∧
      okNode.manifestStore [Event.batchExists [170], Event.getStampIssuer [170],
        Event.issuerUsable ⟨1⟩, Event.directUpload, Event.manifestNew false 0,
        Event.manifestAdd [187] [204]] = ([9, 9], none) ∧
      (actEncryptionHandler okNode okPutter [9, 9] ZeroAddress
        [Event.batchExists [170], Event.getStampIssuer [170], Event.issuerUsable ⟨1⟩,
          Event.directUpload, Event.manifestNew false 0, Event.manifestAdd [187] [204],
          Event.manifestStore]).1 = ⟨[103, 9, 9], [102, 9, 9], none⟩ ∧
      (AddBytes okNode sampleLib "aa" true ZeroAddress false 0 ⟨[1, 2, 3], none⟩ []).1
        = ⟨[103, 3, 6], [102, 3, 6], none⟩ := by
  decide

/-- C4 (defect in the code): AddFeed with act = true and a prior history root
`[50]` that stays current returns a nil error and the non-zero reference
`[9, 9]`, yet its only Done call is on the encrypted reference `[103, 9, 9]`;
the stored manifest root `[9, 9]` is never finalized. -/
theorem AddFeed_act_finalizes_encrypted_reference :
    AddFeed okNode sampleLib "aa" "bb" "cc" true [50] false 0 [] =
        (⟨[9, 9], [50], none⟩,
          [Event.batchExists [170], Event.getStampIssuer [170], Event.issuerUsable ⟨1⟩,
            Event.directUpload, Event.manifestNew false 0, Event.manifestAdd [187] [204],
            Event.manifestStore, Event.uploadHandler [9, 9] ⟨1, 2⟩ [50],
            Event.done [103, 9, 9]]) ∧
      doneCalls (AddFeed okNode sampleLib "aa" "bb" "cc" true [50] false 0 []).2
        = [[103, 9, 9]] ∧
      ([9, 9] : Address) ≠ ZeroAddress := by
  decide

/-! ### Invalid single-owner chunks -/

/-- AddChunk on its single-owner fallback: when the rebuilt chunk fails soc.Valid,
the bare `return` hands back the zero reference with a nil error. -/
theorem AddChunk_invalid_soc_returns_nil (bl : Beelite) (lib : Lib) (batchHex : String)
    (stampSig : Bytes) (act : Bool) (historyAddress : Address) (reader : Reader)
    (t : Trace) (batch : Bytes) (putter : Putter) (t2 : Trace) (e : Error) (sch : SOC)
    (chunk : Chunk)
    (hb : lib.hexDecode batchHex = Except.ok batch)
    (hp : stampedOrStamperPutter bl lib stampSig batch 0 false false t = (Except.ok putter, t2))
    (hr : reader.err = none) (hlen : ¬ reader.data.length < SpanSize)
    (hcac : lib.cacNewWithDataSpan reader.data = Except.error e)
    (hsoc : lib.socFromChunk ⟨EmptyAddress, reader.data⟩ = Except.ok sch)
    (hch : lib.socChunk sch = Except.ok chunk)
    (hv : lib.socValid chunk = false) :
    AddChunk bl lib batchHex stampSig act historyAddress reader 0 t =
      (⟨ZeroAddress, ZeroAddress, none⟩, t2) := by
  simp [AddChunk, hb, hp, hr, hlen, hcac, hsoc, hch, hv]

/-- AddSOC: when the single-owner chunk it built fails soc.Valid, the explicit
`return swarm.ZeroAddress, swarm.ZeroAddress, nil` hands back the zero reference
with a nil error. -/
theorem AddSOC_invalid_soc_returns_nil (bl : Beelite) (lib : Lib) (batchHex : String)
    (stampSig : Bytes) (act : Bool) (historyAddress : Address) (reader : Reader)
    (id owner sig : Bytes) (t : Trace) (batch : Bytes) (putter : Putter) (t1 : Trace)
    (chunk : Chunk) (ss : SOC) (sch : Chunk)
    (hne : batchHex ≠ "")
    (hb : lib.hexDecode batchHex = Except.ok batch)
    (hp : stampedOrStamperPutter bl lib stampSig batch 0 false false t = (Except.ok putter, t1))
    (hr : reader.err = none) (hlen : ¬ reader.data.length < SpanSize)
    (hmax : ¬ reader.data.length > ChunkSize + SpanSize)
    (hcac : lib.cacNewWithDataSpan reader.data = Except.ok chunk)
    (hss : lib.socNewSigned id chunk owner sig = Except.ok ss)
    (hch : lib.socChunk ss = Except.ok sch)
    (hv : lib.socValid sch = false) :
    AddSOC bl lib batchHex stampSig act historyAddress reader id owner sig t =
      (⟨ZeroAddress, ZeroAddress, none⟩, t1) := by
  simp [AddSOC, hne, hb, hp, hr, hlen, hmax, hcac, hss, hch, hv]

/-- C6 (defect in the code): whatever the libraries are, once the single-owner
chunk is built and soc.Valid rejects it, AddSOC returns the zero reference with
a nil error, and so does AddChunk on its single-owner fallback path; neither
makes a further collaborator call. -/
theorem invalid_soc_returns_nil_error :
    (∀ (bl : Beelite) (lib : Lib) (batchHex : String) (stampSig : Bytes) (act : Bool)
        (historyAddress : Address) (reader : Reader) (id owner sig : Bytes) (t : Trace)
        (batch : Bytes) (putter : Putter) (t1 : Trace) (chunk : Chunk) (ss : SOC) (sch : Chunk),
      batchHex ≠ "" → lib.hexDecode batchHex = Except.ok batch →
      stampedOrStamperPutter bl lib stampSig batch 0 false false t = (Except.ok putter, t1) →
      reader.err = none → ¬ reader.data.length < SpanSize →
      ¬ reader.data.length > ChunkSize + SpanSize →
      lib.cacNewWithDataSpan reader.data = Except.ok chunk →
      lib.socNewSigned id chunk owner sig = Except.ok ss →
      lib.socChunk ss = Except.ok sch →
      lib.socValid sch = false →
      AddSOC bl lib batchHex stampSig act historyAddress reader id owner sig t =
        (⟨ZeroAddress, ZeroAddress, none⟩, t1)) ∧
    (∀ (bl : Beelite) (lib : Lib) (batchHex : String) (stampSig : Bytes) (act : Bool)
        (historyAddress : Address) (reader : Reader) (t : Trace) (batch : Bytes)
        (putter : Putter) (t2 : Trace) (e : Error) (sch : SOC) (chunk : Chunk),
      lib.hexDecode batchHex = Except.ok batch →
      stampedOrStamperPutter bl lib stampSig batch 0 false false t = (Except.ok putter, t2) →
      reader.err = none → ¬ reader.data.length < SpanSize →
      lib.cacNewWithDataSpan reader.data = Except.error e →
      lib.socFromChunk ⟨EmptyAddress, reader.data⟩ = Except.ok sch →
      lib.socChunk sch = Except.ok chunk →
      lib.socValid chunk = false →
      AddChunk bl lib batchHex stampSig act historyAddress reader 0 t =
        (⟨ZeroAddress, ZeroAddress, none⟩, t2)) :=
  ⟨fun bl lib batchHex stampSig act historyAddress reader id owner sig t batch putter t1
      chunk ss sch hne hb hp hr hlen hmax hcac hss hch hv =>
    AddSOC_invalid_soc_returns_nil bl lib batchHex stampSig act historyAddress reader id owner
      sig t batch putter t1 chunk ss sch hne hb hp hr hlen hmax hcac hss hch hv,
   fun bl lib batchHex stampSig act historyAddress reader t batch putter t2 e sch chunk
      hb hp hr hlen hcac hsoc hch hv =>
    AddChunk_invalid_soc_returns_nil bl lib batchHex stampSig act historyAddress reader t batch
      putter t2 e sch chunk hb hp hr hlen hcac hsoc hch hv⟩

/-- C6, instance.  AddSOC with a 32-byte id, a 20-byte owner and a 65-byte
signature of zero bytes, from which no owner can be recovered: soc.NewSigned and
Chunk succeed, soc.Valid rejects the chunk, and the result is
`(zero, zero, nil)`.  AddChunk with the 4105-byte envelope signed by the
replicas owner whose id does not match the wrapped address: it is no
content-addressed chunk, soc.FromChunk and Chunk succeed, soc.Valid rejects the
chunk, and the result is `(zero, zero, nil)`. -/
theorem invalid_soc_returns_nil_error_witness :
    (sampleLib.socNewSigned sampleId ⟨[9, 45], [1, 2, 3, 4, 5, 6, 7, 8, 9]⟩ sampleOwner
          (List.replicate 65 0) =
        Except.ok ⟨sampleId, sampleOwner, List.replicate 65 0,
          ⟨[9, 45], [1, 2, 3, 4, 5, 6, 7, 8, 9]⟩⟩ ∧
      sampleLib.socValid
        ⟨[52, 72], sampleId ++ List.replicate 65 0 ++ [1, 2, 3, 4, 5, 6, 7, 8, 9]⟩ = false ∧
      AddSOC okNode sampleLib "aa" [] false ZeroAddress ⟨[1, 2, 3, 4, 5, 6, 7, 8, 9], none⟩
          sampleId sampleOwner (List.replicate 65 0) [] =
        (⟨ZeroAddress, ZeroAddress, none⟩,
          [Event.batchExists [170], Event.getStampIssuer [170], Event.issuerUsable ⟨1⟩,
            Event.directUpload])) ∧
    (sampleLib.cacNewWithDataSpan sampleReplicaEnvelope
        = Except.error (Error.new "data too large") ∧
      sampleLib.socFromChunk ⟨EmptyAddress, sampleReplicaEnvelope⟩ =
        Except.ok ⟨sampleId, ReplicasOwner, sampleSign ReplicasOwner [34, 200],
          ⟨[168, 0], List.replicate 4008 0⟩⟩ ∧
      sampleLib.socValid ⟨[52, 93], sampleReplicaEnvelope⟩ = false ∧
      AddChunk okNode sampleLib "aa" [] false ZeroAddress ⟨sampleReplicaEnvelope, none⟩ 0 [] =
        (⟨ZeroAddress, ZeroAddress, none⟩,
          [Event.batchExists [170], Event.getStampIssuer [170], Event.issuerUsable ⟨1⟩,
            Event.directUpload])) :=
  have hss : sampleLib.socNewSigned sampleId ⟨[9, 45], [1, 2, 3, 4, 5, 6, 7, 8, 9]⟩ sampleOwner
      (List.replicate 65 0) =
      Except.ok ⟨sampleId, sampleOwner, List.replicate 65 0,
        ⟨[9, 45], [1, 2, 3, 4, 5, 6, 7, 8, 9]⟩⟩ := by decide
  have hv : sampleLib.socValid
      ⟨[52, 72], sampleId ++ List.replicate 65 0 ++ [1, 2, 3, 4, 5, 6, 7, 8, 9]⟩ = false := by
    decide
  have hcac : sampleLib.cacNewWithDataSpan sampleReplicaEnvelope
      = Except.error (Error.new "data too large") := by decide!
  have hsoc : sampleLib.socFromChunk ⟨EmptyAddress, sampleReplicaEnvelope⟩ =
      Except.ok ⟨sampleId, ReplicasOwner, sampleSign ReplicasOwner [34, 200],
        ⟨[168, 0], List.replicate 4008 0⟩⟩ := by decide!
  have hch : sampleLib.socChunk ⟨sampleId, ReplicasOwner, sampleSign ReplicasOwner [34, 200],
      ⟨[168, 0], List.replicate 4008 0⟩⟩ = Except.ok ⟨[52, 93], sampleReplicaEnvelope⟩ := by
    decide!
  have hv2 : sampleLib.socValid ⟨[52, 93], sampleReplicaEnvelope⟩ = false := by decide!
  ⟨⟨hss, hv,
      invalid_soc_returns_nil_error.1 okNode sampleLib "aa" [] false ZeroAddress
        ⟨[1, 2, 3, 4, 5, 6, 7, 8, 9], none⟩ sampleId sampleOwner (List.replicate 65 0) [] [170]
        okPutter _ ⟨[9, 45], [1, 2, 3, 4, 5, 6, 7, 8, 9]⟩ _ _ (by decide) rfl rfl rfl
        (by decide) (by decide) rfl hss (by decide) hv⟩,
    ⟨hcac, hsoc, hv2,
      invalid_soc_returns_nil_error.2 okNode sampleLib "aa" [] false ZeroAddress
        ⟨sampleReplicaEnvelope, none⟩ [] [170] okPutter _ _ _ _ rfl rfl rfl (by decide!)
        hcac hsoc hch hv2⟩⟩

/-! ### Reads without access-control headers -/

/-- C7: when the publisher key or the history root is absent,
actDecryptionHandler returns the given reference with a nil error and makes no
collaborator call (the trace is unchanged, so DownloadHandler is not called);
GetChunk then makes exactly one call, the store Get on the given reference, and
returns that chunk, and GetBytes exactly one call, the joiner on the given
reference, and returns that content. -/
theorem actDecryptionHandler_passthrough (bl : Beelite) (reference : Address)
    (publisher : Option PublicKey) (historyAddress : Option Address) (timestamp : Option Int)
    (cache : Bool) (t : Trace) (h : publisher = none ∨ historyAddress = none) :
    actDecryptionHandler bl reference publisher historyAddress timestamp cache t
        = ((reference, none), t) ∧
      (GetChunk bl reference publisher historyAddress timestamp t).2
        = t ++ [Event.storeGet true reference] ∧
      (∀ c, bl.storeGet t true reference = Except.ok c →
        (GetChunk bl reference publisher historyAddress timestamp t).1 = (some c, none)) ∧
      (GetBytes bl reference publisher historyAddress timestamp t).2
        = t ++ [Event.joinerNew reference] ∧
      (∀ content, bl.joinerNew t reference = Except.ok content →
        (GetBytes bl reference publisher historyAddress timestamp t).1 = (some content, none)) := by
  have hdec : ∀ cache, actDecryptionHandler bl reference publisher historyAddress timestamp cache t
      = ((reference, none), t) := by
    intro cache
    rcases h with h | h
    · subst h
      simp [actDecryptionHandler]
    · subst h
      cases publisher <;> simp [actDecryptionHandler]
  refine ⟨hdec cache, ?_, ?_, ?_, ?_⟩
  · simp only [GetChunk, hdec]
    cases hg : bl.storeGet t true reference with
    | error err => by_cases hnf : err.is ErrNotFound = true <;> simp [hnf]
    | ok c => simp
  · intro c hc
    simp [GetChunk, hdec, hc]
  · simp only [GetBytes, hdec]
    cases hg : bl.joinerNew t reference with
    | error err => by_cases hnf : err.is ErrNotFound = true <;> simp [hnf]
    | ok c => simp
  · intro content hc
    simp [GetBytes, hdec, hc]

/-- C7, instance: a read of reference `[4, 2]` with a publisher key but no history
root goes straight to the store. -/
theorem actDecryptionHandler_passthrough_witness :
    ((some ⟨1, 2⟩ : Option PublicKey) = none ∨ (none : Option Address) = none) ∧
      actDecryptionHandler okNode [4, 2] (some ⟨1, 2⟩) none (some 5) true []
        = (([4, 2], none), []) ∧
      (GetChunk okNode [4, 2] (some ⟨1, 2⟩) none (some 5) []).2
        = [] ++ [Event.storeGet true [4, 2]] ∧
      (GetBytes okNode [4, 2] (some ⟨1, 2⟩) none (some 5) []).2
        = [] ++ [Event.joinerNew [4, 2]] :=
  have H := actDecryptionHandler_passthrough okNode [4, 2] (some ⟨1, 2⟩) none (some 5) true []
    (Or.inr rfl)
  ⟨Or.inr rfl, H.1, H.2.1, H.2.2.2.1⟩
/-! ### From the entry point to its access-control step -/

/-- Every error contains itself. -/
theorem Error.is_self (e : Error) : e.is e = true := by
  cases e <;> simp [Error.is]

/-- The joined error of a failed top-level Done still contains the Done error. -/
theorem joinWith_wrap_is (msg : String) (e : Error) (c : Option Error) :
    ((Error.wrap msg e).joinWith c).is e = true := by
  cases c <;> simp [Error.joinWith, Error.is, Error.is_self]

/-- A run of AddBytes that reaches its access-control step continues with that
step and the top-level Done. -/
theorem AddBytes_of_reaches {bl : Beelite} {lib : Lib} {batchHex : String} {encrypt : Bool}
    {rLevel : Nat} {reader : Reader} {t : Trace} {p : Putter} {t1 : Trace} {ref : Address}
    (h : AddBytesReaches bl lib batchHex encrypt rLevel reader t p t1 ref) (act : Bool)
    (historyAddress : Address) :
    AddBytes bl lib batchHex act historyAddress encrypt rLevel reader t =
      match actIfRequested bl p act ref historyAddress
          (t1 ++ [Event.pipeline encrypt rLevel reader]) with
      | (⟨_, newHistoryAddress, some err⟩, t3) => (⟨ref, newHistoryAddress, some err⟩, t3)
      | (⟨encryptedReference, newHistoryAddress, none⟩, t3) =>
        match p.done t3 ref with
        | some err =>
          (⟨ref, newHistoryAddress,
              some ((Error.wrap "(done split) upload failed 2" err).joinWith
                (p.cleanup (t3 ++ [Event.done ref])))⟩,
            t3 ++ [Event.done ref] ++ [Event.cleanup])
        | none => (⟨encryptedReference, newHistoryAddress, none⟩, t3 ++ [Event.done ref]) := by
  obtain ⟨hne, batch, hb, hp, hpipe⟩ := h
  simp only [AddBytes, if_neg hne, hb, hp, hpipe]

/-- A run of AddFeed that reaches its access-control step continues with that
step and the top-level Done. -/
theorem AddFeed_of_reaches {bl : Beelite} {lib : Lib} {batchHex owner topic : String}
    {encrypt : Bool} {rLevel : Nat} {t : Trace} {p : Putter} {t3 : Trace} {stored : Address}
    (h : AddFeedReaches bl lib batchHex owner topic encrypt rLevel t p t3 stored) (act : Bool)
    (historyAddress : Address) :
    AddFeed bl lib batchHex owner topic act historyAddress encrypt rLevel t =
      match actIfRequested bl p act stored historyAddress (t3 ++ [Event.manifestStore]) with
      | (⟨reference, newHistoryAddress, some err⟩, t5) =>
        (⟨reference, newHistoryAddress, some err⟩, t5)
      | (⟨reference, newHistoryAddress, none⟩, t5) =>
        match p.done t5 reference with
        | some err =>
          (⟨reference, newHistoryAddress,
              some ((Error.wrap "done split failed" err).joinWith
                (p.cleanup (t5 ++ [Event.done reference])))⟩,
            t5 ++ [Event.done reference] ++ [Event.cleanup])
        | none => (⟨stored, newHistoryAddress, none⟩, t5 ++ [Event.done reference]) := by
  obtain ⟨hne, ownerB, topicB, batch, t1, ho, ht, hb, hp, hnew, hadd, ht3, hstore⟩ := h
  subst ht3
  simp only [AddFeed, if_neg hne, ho, ht, hb, hp, hnew, hadd, hstore]

/-- A run of AddChunk that reaches its access-control step continues with the
shared upload tail. -/
theorem AddChunk_of_reaches {bl : Beelite} {lib : Lib} {batchHex : String} {stampSig : Bytes}
    {reader : Reader} {swarmTag : Nat} {t : Trace} {p : Putter} {t2 : Trace} {chunk : Chunk}
    (h : AddChunkReaches bl lib batchHex stampSig reader swarmTag t p t2 chunk) (act : Bool)
    (historyAddress : Address) :
    AddChunk bl lib batchHex stampSig act historyAddress reader swarmTag t =
      uploadChunk bl p act historyAddress chunk t2 := by
  obtain ⟨batch, tag, t1, hb, hs, hp, hr, hlen, hc⟩ := h
  have hlen' : ¬ reader.data.length < SpanSize := by omega
  rcases hc with hc | ⟨e, sch, hc, hsoc, hch, hv⟩
  · simp only [AddChunk, hb, hs, hp, hr, if_neg hlen', hc]
  · simp [AddChunk, hb, hs, hp, hr, hlen', hc, hsoc, hch, hv]

/-- A run of AddSOC that reaches its access-control step continues with the
shared upload tail. -/
theorem AddSOC_of_reaches {bl : Beelite} {lib : Lib} {batchHex : String} {stampSig : Bytes}
    {reader : Reader} {id owner sig : Bytes} {t : Trace} {p : Putter} {t1 : Trace}
    {sch : Chunk}
    (h : AddSOCReaches bl lib batchHex stampSig reader id owner sig t p t1 sch) (act : Bool)
    (historyAddress : Address) :
    AddSOC bl lib batchHex stampSig act historyAddress reader id owner sig t =
      uploadChunk bl p act historyAddress sch t1 := by
  obtain ⟨hne, batch, chunk, ss, hb, hp, hr, hlen, hmax, hc, hss, hch, hv⟩ := h
  have hlen' : ¬ reader.data.length < SpanSize := by omega
  have hmax' : ¬ reader.data.length > ChunkSize + SpanSize := by omega
  simp [AddSOC, hne, hb, hp, hr, hlen', hmax', hc, hss, hch, hv]
/-! ### Cleanup after a failed write step -/

/-- C5 (as stated, refuted): three write-path failures after the session was
opened that do not invoke Cleanup.  In AddBytes the split pipeline fails, in
AddChunk putter.Put fails, in AddRevokeGrantees the first putter.Done fails; each
run ends right after the failing call, and the error of the last two is
returned as it is. -/
theorem no_cleanup_on_other_failures :
    (AddBytes pipelineFailsNode sampleLib "aa" false ZeroAddress false 0 ⟨[1, 2, 3], none⟩ [] =
        (⟨ZeroAddress, ZeroAddress,
            some (Error.wrap "(split write all) upload failed 1" (Error.collab 4))⟩,
          [Event.batchExists [170], Event.getStampIssuer [170], Event.issuerUsable ⟨1⟩,
            Event.directUpload, Event.pipeline false 0 ⟨[1, 2, 3], none⟩])) ∧
      (AddChunk putFailsNode sampleLib "aa" [] false ZeroAddress
          ⟨[1, 2, 3, 4, 5, 6, 7, 8, 9], none⟩ 0 [] =
        (⟨[9, 45], ZeroAddress, some (Error.collab 3)⟩,
          [Event.batchExists [170], Event.getStampIssuer [170], Event.issuerUsable ⟨1⟩,
            Event.directUpload, Event.put ⟨[9, 45], [1, 2, 3, 4, 5, 6, 7, 8, 9]⟩])) ∧
      (AddRevokeGrantees doneFailsNode sampleLib "aa" [5] [6] (some [sampleKeyHex]) none [] =
        (⟨ZeroAddress, ZeroAddress, some (Error.collab 1)⟩,
          [Event.batchExists [170], Event.getStampIssuer [170], Event.issuerUsable ⟨1⟩,
            Event.directUpload,
            Event.updateHandler [5] [6] ⟨1, 2⟩ (some [sampleKey]) (some []),
            Event.done [203, 5]])) ∧
      Event.cleanup ∉
        (AddBytes pipelineFailsNode sampleLib "aa" false ZeroAddress false 0
          ⟨[1, 2, 3], none⟩ []).2 ∧
      Event.cleanup ∉
        (AddChunk putFailsNode sampleLib "aa" [] false ZeroAddress
          ⟨[1, 2, 3, 4, 5, 6, 7, 8, 9], none⟩ 0 []).2 ∧
      Event.cleanup ∉
        (AddRevokeGrantees doneFailsNode sampleLib "aa" [5] [6] (some [sampleKeyHex]) none []).2 := by
  decide!

/-- C5 (amended): in AddBytes, AddFeed, AddChunk and AddSOC, whenever the
top-level putter.Done fails with `e`, putter.Cleanup is invoked right after it
and the run ends; the returned error is errors.Join of the wrapped Done error
with Cleanup's own error, and errors.Is still finds `e` in it. -/
theorem cleanup_on_top_level_done_failure :
    (∀ (bl : Beelite) (lib : Lib) (batchHex : String) (act : Bool) (historyAddress : Address)
        (encrypt : Bool) (rLevel : Nat) (reader : Reader) (t : Trace) (p : Putter) (t1 : Trace)
        (ref enc nh : Address) (t3 : Trace) (e : Error),
      AddBytesReaches bl lib batchHex encrypt rLevel reader t p t1 ref →
      actIfRequested bl p act ref historyAddress (t1 ++ [Event.pipeline encrypt rLevel reader])
        = (⟨enc, nh, none⟩, t3) →
      p.done t3 ref = some e →
      AddBytes bl lib batchHex act historyAddress encrypt rLevel reader t =
          (⟨ref, nh, some ((Error.wrap "(done split) upload failed 2" e).joinWith
              (p.cleanup (t3 ++ [Event.done ref])))⟩,
            t3 ++ [Event.done ref, Event.cleanup]) ∧
        ((Error.wrap "(done split) upload failed 2" e).joinWith
          (p.cleanup (t3 ++ [Event.done ref]))).is e = true) ∧
    (∀ (bl : Beelite) (lib : Lib) (batchHex owner topic : String) (act : Bool)
        (historyAddress : Address) (encrypt : Bool) (rLevel : Nat) (t : Trace) (p : Putter)
        (t3 : Trace) (stored r nh : Address) (t5 : Trace) (e : Error),
      AddFeedReaches bl lib batchHex owner topic encrypt rLevel t p t3 stored →
      actIfRequested bl p act stored historyAddress (t3 ++ [Event.manifestStore])
        = (⟨r, nh, none⟩, t5) →
      p.done t5 r = some e →
      AddFeed bl lib batchHex owner topic act historyAddress encrypt rLevel t =
          (⟨r, nh, some ((Error.wrap "done split failed" e).joinWith
              (p.cleanup (t5 ++ [Event.done r])))⟩,
            t5 ++ [Event.done r, Event.cleanup]) ∧
        ((Error.wrap "done split failed" e).joinWith
          (p.cleanup (t5 ++ [Event.done r]))).is e = true) ∧
    (∀ (bl : Beelite) (lib : Lib) (batchHex : String) (stampSig : Bytes) (act : Bool)
        (historyAddress : Address) (reader : Reader) (swarmTag : Nat) (t : Trace) (p : Putter)
        (t2 : Trace) (chunk : Chunk) (r nh : Address) (t3 : Trace) (e : Error),
      AddChunkReaches bl lib batchHex stampSig reader swarmTag t p t2 chunk →
      actIfRequested bl p act chunk.address historyAddress t2 = (⟨r, nh, none⟩, t3) →
      p.put t3 chunk = none →
      p.done (t3 ++ [Event.put chunk]) chunk.address = some e →
      AddChunk bl lib batchHex stampSig act historyAddress reader swarmTag t =
          (⟨r, nh, some ((Error.wrap "done split failed" e).joinWith
              (p.cleanup (t3 ++ [Event.put chunk, Event.done chunk.address])))⟩,
            t3 ++ [Event.put chunk, Event.done chunk.address, Event.cleanup]) ∧
        ((Error.wrap "done split failed" e).joinWith
          (p.cleanup (t3 ++ [Event.put chunk, Event.done chunk.address]))).is e = true) ∧
    (∀ (bl : Beelite) (lib : Lib) (batchHex : String) (stampSig : Bytes) (act : Bool)
        (historyAddress : Address) (reader : Reader) (id owner sig : Bytes) (t : Trace)
        (p : Putter) (t1 : Trace) (sch : Chunk) (r nh : Address) (t3 : Trace) (e : Error),
      AddSOCReaches bl lib batchHex stampSig reader id owner sig t p t1 sch →
      actIfRequested bl p act sch.address historyAddress t1 = (⟨r, nh, none⟩, t3) →
      p.put t3 sch = none →
      p.done (t3 ++ [Event.put sch]) sch.address = some e →
      AddSOC bl lib batchHex stampSig act historyAddress reader id owner sig t =
          (⟨r, nh, some ((Error.wrap "done split failed" e).joinWith
              (p.cleanup (t3 ++ [Event.put sch, Event.done sch.address])))⟩,
            t3 ++ [Event.put sch, Event.done sch.address, Event.cleanup]) ∧
        ((Error.wrap "done split failed" e).joinWith
          (p.cleanup (t3 ++ [Event.put sch, Event.done sch.address]))).is e = true) := by
  refine ⟨?_, ?_, ?_, ?_⟩
  · intro bl lib batchHex act historyAddress encrypt rLevel reader t p t1 ref enc nh t3 e
      hreach hact hd
    refine ⟨?_, joinWith_wrap_is _ _ _⟩
    rw [AddBytes_of_reaches hreach, hact]
    simp [hd]
  · intro bl lib batchHex owner topic act historyAddress encrypt rLevel t p t3 stored r nh t5 e
      hreach hact hd
    refine ⟨?_, joinWith_wrap_is _ _ _⟩
    rw [AddFeed_of_reaches hreach, hact]
    simp [hd]
  · intro bl lib batchHex stampSig act historyAddress reader swarmTag t p t2 chunk r nh t3 e
      hreach hact hput hd
    refine ⟨?_, joinWith_wrap_is _ _ _⟩
    rw [AddChunk_of_reaches hreach, uploadChunk, hact]
    simp [putAndDone, hput, hd]
  · intro bl lib batchHex stampSig act historyAddress reader id owner sig t p t1 sch r nh t3 e
      hreach hact hput hd
    refine ⟨?_, joinWith_wrap_is _ _ _⟩
    rw [AddSOC_of_reaches hreach, uploadChunk, hact]
    simp [putAndDone, hput, hd]

/-- C5 (amended), instance: on the node whose Done and Cleanup fail, AddBytes
without access control reaches its top-level Done, invokes Cleanup and returns
both errors joined. -/
theorem cleanup_on_top_level_done_failure_witness :
    AddBytesReaches doneFailsNode sampleLib "aa" false 0 ⟨[1, 2, 3], none⟩ [] doneFailsPutter
        [Event.batchExists [170], Event.getStampIssuer [170], Event.issuerUsable ⟨1⟩,
          Event.directUpload] [3, 6] ∧
      AddBytes doneFailsNode sampleLib "aa" false ZeroAddress false 0 ⟨[1, 2, 3], none⟩ [] =
        (⟨[3, 6], ZeroAddress,
            some (Error.join2 (Error.wrap "(done split) upload failed 2" (Error.collab 1))
              (Error.collab 2))⟩,
          [Event.batchExists [170], Event.getStampIssuer [170], Event.issuerUsable ⟨1⟩,
            Event.directUpload, Event.pipeline false 0 ⟨[1, 2, 3], none⟩, Event.done [3, 6],
            Event.cleanup]) :=
  have hreach : AddBytesReaches doneFailsNode sampleLib "aa" false 0 ⟨[1, 2, 3], none⟩ []
      doneFailsPutter [Event.batchExists [170], Event.getStampIssuer [170],
        Event.issuerUsable ⟨1⟩, Event.directUpload] [3, 6] :=
    ⟨by decide, [170], rfl, rfl, rfl⟩
  ⟨hreach, (cleanup_on_top_level_done_failure.1 doneFailsNode sampleLib "aa" false ZeroAddress
    false 0 ⟨[1, 2, 3], none⟩ [] doneFailsPutter _ [3, 6] [3, 6] ZeroAddress _ (Error.collab 1)
    hreach rfl rfl).1⟩
/-! ### AddChunk on a content-addressed chunk -/

/-- C8: AddChunk with protect = false, no stamp signature and session id 0, on a
decodable batch for which the putter `p` is obtained, on data of at least
SpanSize bytes that cac.NewWithDataSpan accepts as chunk `c`, with succeeding
Put and Done: the result is `(c.address, zero, nil)`, and after the session was
obtained the calls are exactly one Put of `c` and one Done on `c.address`.  Any
second such run on the same data, on whatever node, batch, history or earlier
trace, returns the same reference. -/
theorem AddChunk_content_addressed (bl : Beelite) (lib : Lib) (batchHex : String)
    (historyAddress : Address) (reader : Reader) (t : Trace) (batch : Bytes) (p : Putter)
    (t1 : Trace) (c : Chunk)
    (hb : lib.hexDecode batchHex = Except.ok batch)
    (hp : newStamperPutter bl ⟨batch, 0, false, false⟩ t = (Except.ok p, t1))
    (hr : reader.err = none) (hlen : SpanSize ≤ reader.data.length)
    (hc : lib.cacNewWithDataSpan reader.data = Except.ok c)
    (hput : p.put t1 c = none)
    (hdone : p.done (t1 ++ [Event.put c]) c.address = none) :
    AddChunk bl lib batchHex [] false historyAddress reader 0 t =
        (⟨c.address, ZeroAddress, none⟩, t1 ++ [Event.put c, Event.done c.address]) ∧
      ∀ (bl2 : Beelite) (batchHex2 : String) (historyAddress2 : Address) (reader2 : Reader)
        (u : Trace) (batch2 : Bytes) (p2 : Putter) (u1 : Trace) (c2 : Chunk),
        lib.hexDecode batchHex2 = Except.ok batch2 →
        newStamperPutter bl2 ⟨batch2, 0, false, false⟩ u = (Except.ok p2, u1) →
        reader2.err = none → reader2.data = reader.data →
        lib.cacNewWithDataSpan reader2.data = Except.ok c2 →
        p2.put u1 c2 = none → p2.done (u1 ++ [Event.put c2]) c2.address = none →
        (AddChunk bl2 lib batchHex2 [] false historyAddress2 reader2 0 u).1.reference =
          (AddChunk bl lib batchHex [] false historyAddress reader 0 t).1.reference := by
  have key : ∀ (bl : Beelite) (batchHex : String) (historyAddress : Address) (reader : Reader)
      (t : Trace) (batch : Bytes) (p : Putter) (t1 : Trace) (c : Chunk),
      lib.hexDecode batchHex = Except.ok batch →
      newStamperPutter bl ⟨batch, 0, false, false⟩ t = (Except.ok p, t1) →
      reader.err = none → SpanSize ≤ reader.data.length →
      lib.cacNewWithDataSpan reader.data = Except.ok c →
      p.put t1 c = none → p.done (t1 ++ [Event.put c]) c.address = none →
      AddChunk bl lib batchHex [] false historyAddress reader 0 t =
        (⟨c.address, ZeroAddress, none⟩, t1 ++ [Event.put c, Event.done c.address]) := by
    intro bl batchHex historyAddress reader t batch p t1 c hb hp hr hlen hc hput hdone
    have hreach : AddChunkReaches bl lib batchHex [] reader 0 t p t1 c :=
      ⟨batch, 0, t, hb, by simp, by simpa [stampedOrStamperPutter] using hp, hr, hlen,
        Or.inl hc⟩
    rw [AddChunk_of_reaches hreach]
    simp [uploadChunk, actIfRequested, putAndDone, hput, hdone]
  refine ⟨key bl batchHex historyAddress reader t batch p t1 c hb hp hr hlen hc hput hdone, ?_⟩
  intro bl2 batchHex2 historyAddress2 reader2 u batch2 p2 u1 c2 hb2 hp2 hr2 hdata hc2 hput2 hdone2
  have hlen2 : SpanSize ≤ reader2.data.length := by rw [hdata]; exact hlen
  have hcc : c2 = c := by
    rw [hdata, hc] at hc2
    injection hc2 with h
    exact h.symm
  rw [key bl2 batchHex2 historyAddress2 reader2 u batch2 p2 u1 c2 hb2 hp2 hr2 hlen2 hc2 hput2
      hdone2,
    key bl batchHex historyAddress reader t batch p t1 c hb hp hr hlen hc hput hdone, hcc]

/-- C8, instance: nine bytes uploaded as a chunk on the sample node. -/
theorem AddChunk_content_addressed_witness :
    SpanSize ≤ (⟨[1, 2, 3, 4, 5, 6, 7, 8, 9], none⟩ : Reader).data.length ∧
      sampleLib.cacNewWithDataSpan [1, 2, 3, 4, 5, 6, 7, 8, 9]
        = Except.ok ⟨[9, 45], [1, 2, 3, 4, 5, 6, 7, 8, 9]⟩ ∧
      AddChunk okNode sampleLib "aa" [] false ZeroAddress ⟨[1, 2, 3, 4, 5, 6, 7, 8, 9], none⟩ 0 []
        = (⟨[9, 45], ZeroAddress, none⟩,
          [Event.batchExists [170], Event.getStampIssuer [170], Event.issuerUsable ⟨1⟩,
              Event.directUpload]
            ++ [Event.put ⟨[9, 45], [1, 2, 3, 4, 5, 6, 7, 8, 9]⟩, Event.done [9, 45]]) :=
  ⟨by decide, rfl,
    (AddChunk_content_addressed okNode sampleLib "aa" ZeroAddress
      ⟨[1, 2, 3, 4, 5, 6, 7, 8, 9], none⟩ [] [170] okPutter
      [Event.batchExists [170], Event.getStampIssuer [170], Event.issuerUsable ⟨1⟩,
        Event.directUpload]
      ⟨[9, 45], [1, 2, 3, 4, 5, 6, 7, 8, 9]⟩ rfl rfl rfl (by decide) rfl rfl rfl).1⟩

/-! ### AddRevokeGrantees: which roots are finalized -/

/-- C10 (as stated, refuted): UpdateHandler returns the grantee root `[5]` and the
history root `[6]` unchanged, equal to the prior roots the caller supplied, and
AddRevokeGrantees still calls Done on both of them. -/
theorem AddRevokeGrantees_finalizes_unchanged_roots :
    okNode.updateHandler
        [Event.batchExists [170], Event.getStampIssuer [170], Event.issuerUsable ⟨1⟩,
          Event.directUpload]
        okPutter [5] [6] okNode.publicKey (some [sampleKey]) (some [])
        = Except.ok ([5], [201, 5], [6], [203, 5]) ∧
      AddRevokeGrantees okNode sampleLib "aa" [5] [6] (some [sampleKeyHex]) none [] =
        (⟨[201, 5], [6], none⟩,
          [Event.batchExists [170], Event.getStampIssuer [170], Event.issuerUsable ⟨1⟩,
            Event.directUpload,
            Event.updateHandler [5] [6] ⟨1, 2⟩ (some [sampleKey]) (some []),
            Event.done [203, 5], Event.done [6], Event.done [5]]) ∧
      doneCalls (AddRevokeGrantees okNode sampleLib "aa" [5] [6] (some [sampleKeyHex]) none []).2
        = [[203, 5], [6], [5]] := by
  decide!

/-- C10 (amended): AddRevokeGrantees does not compare the returned roots with the
prior ones.  After a successful UpdateHandler returning grantee root `gr`,
encrypted grantee reference `egl`, history root `hr` and act root `ar`, it calls
Done on `ar`, then on `hr`, then on `gr`, whatever `granteesAddress` and
`historyAddress` are; the first failing Done ends the run, with no further
call, and its error is returned with two zero addresses; when all three succeed
the result is `(egl, hr, nil)`. -/
theorem AddRevokeGrantees_done_unconditional (bl : Beelite) (lib : Lib) (batchHex : String)
    (granteesAddress historyAddress : Address) (addlist revokelist : Option (List String))
    (t : Trace) (pa pr : List PublicKey) (batch : Bytes) (p : Putter) (t1 : Trace)
    (gr egl hr ar : Address)
    (hnil : (addlist.isNone && revokelist.isNone) = false)
    (hpa : parseKeys lib addlist = (pa, none)) (hpr : parseKeys lib revokelist = (pr, none))
    (hb : lib.hexDecode batchHex = Except.ok batch)
    (hp : newStamperPutter bl ⟨batch, 0, false, false⟩ t = (Except.ok p, t1))
    (hu : bl.updateHandler t1 p granteesAddress historyAddress bl.publicKey (some pa) (some pr)
      = Except.ok (gr, egl, hr, ar)) :
    (∀ e, p.done (t1 ++ [Event.updateHandler granteesAddress historyAddress bl.publicKey
        (some pa) (some pr)]) ar = some e →
      AddRevokeGrantees bl lib batchHex granteesAddress historyAddress addlist revokelist t =
        (⟨ZeroAddress, ZeroAddress, some e⟩,
          t1 ++ [Event.updateHandler granteesAddress historyAddress bl.publicKey
            (some pa) (some pr), Event.done ar])) ∧
    (p.done (t1 ++ [Event.updateHandler granteesAddress historyAddress bl.publicKey
        (some pa) (some pr)]) ar = none →
      (∀ e, p.done (t1 ++ [Event.updateHandler granteesAddress historyAddress bl.publicKey
          (some pa) (some pr), Event.done ar]) hr = some e →
        AddRevokeGrantees bl lib batchHex granteesAddress historyAddress addlist revokelist t =
          (⟨ZeroAddress, ZeroAddress, some e⟩,
            t1 ++ [Event.updateHandler granteesAddress historyAddress bl.publicKey
              (some pa) (some pr), Event.done ar, Event.done hr])) ∧
      (p.done (t1 ++ [Event.updateHandler granteesAddress historyAddress bl.publicKey
          (some pa) (some pr), Event.done ar]) hr = none →
        (∀ e, p.done (t1 ++ [Event.updateHandler granteesAddress historyAddress bl.publicKey
            (some pa) (some pr), Event.done ar, Event.done hr]) gr = some e →
          AddRevokeGrantees bl lib batchHex granteesAddress historyAddress addlist revokelist t =
            (⟨ZeroAddress, ZeroAddress, some e⟩,
              t1 ++ [Event.updateHandler granteesAddress historyAddress bl.publicKey
                (some pa) (some pr), Event.done ar, Event.done hr, Event.done gr])) ∧
        (p.done (t1 ++ [Event.updateHandler granteesAddress historyAddress bl.publicKey
            (some pa) (some pr), Event.done ar, Event.done hr]) gr = none →
          AddRevokeGrantees bl lib batchHex granteesAddress historyAddress addlist revokelist t =
            (⟨egl, hr, none⟩,
              t1 ++ [Event.updateHandler granteesAddress historyAddress bl.publicKey
                (some pa) (some pr), Event.done ar, Event.done hr, Event.done gr])))) := by
  have hrun : AddRevokeGrantees bl lib batchHex granteesAddress historyAddress addlist
      revokelist t = doneGranteeRoots p gr egl hr ar
        (t1 ++ [Event.updateHandler granteesAddress historyAddress bl.publicKey
          (some pa) (some pr)]) := by
    simp only [AddRevokeGrantees, hnil, hpa, hpr, hb, hp, hu]
    simp
  rw [hrun]
  refine ⟨?_, ?_⟩
  · intro e h1
    simp [doneGranteeRoots, h1]
  · intro h1
    refine ⟨?_, ?_⟩
    · intro e h2
      simp [doneGranteeRoots, h1, h2]
    · intro h2
      refine ⟨?_, ?_⟩
      · intro e h3
        simp [doneGranteeRoots, h1, h2, h3]
      · intro h3
        simp [doneGranteeRoots, h1, h2, h3]

/-- C10 (amended), instance: one key added on the sample node, whose UpdateHandler
returns the prior grantee and history roots.  With a working session all three
roots are finalized; with a session whose Done fails the run ends after the
first Done. -/
theorem AddRevokeGrantees_done_unconditional_witness :
    parseKeys sampleLib (some [sampleKeyHex]) = ([sampleKey], none) ∧
      AddRevokeGrantees okNode sampleLib "aa" [5] [6] (some [sampleKeyHex]) none [] =
        (⟨[201, 5], [6], none⟩,
          [Event.batchExists [170], Event.getStampIssuer [170], Event.issuerUsable ⟨1⟩,
              Event.directUpload]
            ++ [Event.updateHandler [5] [6] okNode.publicKey (some [sampleKey]) (some []),
              Event.done [203, 5], Event.done [6], Event.done [5]]) ∧
      AddRevokeGrantees doneFailsNode sampleLib "aa" [5] [6] (some [sampleKeyHex]) none [] =
        (⟨ZeroAddress, ZeroAddress, some (Error.collab 1)⟩,
          [Event.batchExists [170], Event.getStampIssuer [170], Event.issuerUsable ⟨1⟩,
              Event.directUpload]
            ++ [Event.updateHandler [5] [6] doneFailsNode.publicKey (some [sampleKey]) (some []),
              Event.done [203, 5]]) :=
  have hk : parseKeys sampleLib (some [sampleKeyHex]) = ([sampleKey], none) := by decide!
  ⟨hk,
    ((((AddRevokeGrantees_done_unconditional okNode sampleLib "aa" [5] [6]
      (some [sampleKeyHex]) none [] [sampleKey] [] [170] okPutter
      [Event.batchExists [170], Event.getStampIssuer [170], Event.issuerUsable ⟨1⟩,
        Event.directUpload]
      [5] [201, 5] [6] [203, 5] rfl hk rfl rfl rfl rfl).2 rfl).2 rfl).2 rfl),
    (AddRevokeGrantees_done_unconditional doneFailsNode sampleLib "aa" [5] [6]
      (some [sampleKeyHex]) none [] [sampleKey] [] [170] doneFailsPutter
      [Event.batchExists [170], Event.getStampIssuer [170], Event.issuerUsable ⟨1⟩,
        Event.directUpload]
      [5] [201, 5] [6] [203, 5] rfl hk rfl rfl rfl rfl).1 (Error.collab 1) rfl⟩

/-! ### Order of the session effects under access control -/

/-- The calls made by actEncryptionHandler are the UploadHandler call followed by
Done calls only. -/
theorem actEncryptionHandler_trace (bl : Beelite) (p : Putter) (ref hist : Address)
    (t : Trace) :
    ∃ ds : List Address, (actEncryptionHandler bl p ref hist t).2 =
      t ++ Event.uploadHandler ref bl.publicKey hist :: ds.map Event.done := by
  unfold actEncryptionHandler
  cases hu : bl.uploadHandler t p ref bl.publicKey hist with
  | error e => exact ⟨[], by simp⟩
  | ok v =>
    obtain ⟨s, h, e⟩ := v
    by_cases hne : h = hist
    · exact ⟨[], by simp [hne]⟩
    · cases h1 : p.done (t ++ [Event.uploadHandler ref bl.publicKey hist]) s with
      | some err => exact ⟨[s], by simp [hne, h1]⟩
      | none =>
        cases h2 : p.done (t ++ [Event.uploadHandler ref bl.publicKey hist, Event.done s]) h with
        | some err => exact ⟨[s, h], by simp [hne, h1, h2]⟩
        | none => exact ⟨[s, h], by simp [hne, h1, h2]⟩

/-- C9 (as stated, refuted): in AddChunk and AddSOC with protect = true the
access-control wrapper (UploadHandler and its two Done calls) runs before the
chunk is written with putter.Put, not after it. -/
theorem AddChunk_AddSOC_wrap_before_put :
    (AddChunk okNode sampleLib "aa" [] true ZeroAddress ⟨[1, 2, 3, 4, 5, 6, 7, 8, 9], none⟩ 0 []).2 =
        [Event.batchExists [170], Event.getStampIssuer [170], Event.issuerUsable ⟨1⟩,
          Event.directUpload,
          Event.uploadHandler [9, 45] ⟨1, 2⟩ ZeroAddress,
          Event.done [101, 9, 45], Event.done [102, 9, 45],
          Event.put ⟨[9, 45], [1, 2, 3, 4, 5, 6, 7, 8, 9]⟩,
          Event.done [9, 45]] ∧
      (AddSOC okNode sampleLib "aa" [] true ZeroAddress ⟨[1, 2, 3, 4, 5, 6, 7, 8, 9], none⟩
          sampleId sampleOwner (sampleSign sampleOwner [34, 86]) []).2 =
        [Event.batchExists [170], Event.getStampIssuer [170], Event.issuerUsable ⟨1⟩,
          Event.directUpload,
          Event.uploadHandler [52, 72] ⟨1, 2⟩ ZeroAddress,
          Event.done [101, 52, 72], Event.done [102, 52, 72],
          Event.put ⟨[52, 72],
            sampleId ++ sampleSign sampleOwner [34, 86] ++ [1, 2, 3, 4, 5, 6, 7, 8, 9]⟩,
          Event.done [52, 72]] := by
  decide

/-- The shared upload tail under access control: the wrapper's calls come first,
then at most the Put of the chunk, the Done on its address and a Cleanup. -/
theorem uploadChunk_act_trace (bl : Beelite) (p : Putter) (hist : Address) (chunk : Chunk)
    (t : Trace) :
    ∃ (ds : List Address) (post : Trace),
      (actEncryptionHandler bl p chunk.address hist t).2 =
        t ++ Event.uploadHandler chunk.address bl.publicKey hist :: ds.map Event.done ∧
      (uploadChunk bl p true hist chunk t).2 =
        t ++ Event.uploadHandler chunk.address bl.publicKey hist :: ds.map Event.done ++ post ∧
      (post = [] ∨ post = [Event.put chunk] ∨
        post = [Event.put chunk, Event.done chunk.address] ∨
        post = [Event.put chunk, Event.done chunk.address, Event.cleanup]) := by
  obtain ⟨ds, hds⟩ := actEncryptionHandler_trace bl p chunk.address hist t
  refine ⟨ds, ?_⟩
  simp only [uploadChunk, actIfRequested, if_true]
  rcases hres : actEncryptionHandler bl p chunk.address hist t with ⟨⟨r, nh, err⟩, t3⟩
  rw [hres] at hds
  simp only at hds
  subst hds
  cases err with
  | some e => exact ⟨[], rfl, by simp, Or.inl rfl⟩
  | none =>
    simp only [putAndDone]
    split
    · exact ⟨[Event.put chunk], by simp, by simp, Or.inr (Or.inl rfl)⟩
    · split
      · exact ⟨[Event.put chunk, Event.done chunk.address, Event.cleanup], by simp, by simp,
          Or.inr (Or.inr (Or.inr rfl))⟩
      · exact ⟨[Event.put chunk, Event.done chunk.address], by simp, by simp,
          Or.inr (Or.inr (Or.inl rfl))⟩

/-- C9 (amended): with protect = true, once the putter is obtained and the content
is known, the calls of a run are ordered as follows.  In AddBytes the split
pipeline run, and in AddFeed the manifest Store, comes first, then the calls of
actEncryptionHandler (UploadHandler, then its own Done calls), then at most one
top-level Done and a Cleanup.  In AddChunk and AddSOC the calls of
actEncryptionHandler come first and the chunk is Put only after them, followed
by the top-level Done on the chunk address and possibly a Cleanup.  In all four
the wrapper has finished before the top-level Done. -/
theorem session_effects_order :
    (∀ (bl : Beelite) (lib : Lib) (batchHex : String) (historyAddress : Address)
        (encrypt : Bool) (rLevel : Nat) (reader : Reader) (t : Trace) (p : Putter) (t1 : Trace)
        (ref : Address),
      AddBytesReaches bl lib batchHex encrypt rLevel reader t p t1 ref →
      ∃ (ds : List Address) (post : Trace),
        (actEncryptionHandler bl p ref historyAddress
            (t1 ++ [Event.pipeline encrypt rLevel reader])).2 =
          t1 ++ [Event.pipeline encrypt rLevel reader]
            ++ Event.uploadHandler ref bl.publicKey historyAddress :: ds.map Event.done ∧
        (AddBytes bl lib batchHex true historyAddress encrypt rLevel reader t).2 =
          t1 ++ [Event.pipeline encrypt rLevel reader]
            ++ Event.uploadHandler ref bl.publicKey historyAddress :: ds.map Event.done
            ++ post ∧
        (post = [] ∨ post = [Event.done ref] ∨ post = [Event.done ref, Event.cleanup])) ∧
    (∀ (bl : Beelite) (lib : Lib) (batchHex owner topic : String) (historyAddress : Address)
        (encrypt : Bool) (rLevel : Nat) (t : Trace) (p : Putter) (t3 : Trace)
        (stored : Address),
      AddFeedReaches bl lib batchHex owner topic encrypt rLevel t p t3 stored →
      ∃ (ds : List Address) (post : Trace),
        (actEncryptionHandler bl p stored historyAddress (t3 ++ [Event.manifestStore])).2 =
          t3 ++ [Event.manifestStore]
            ++ Event.uploadHandler stored bl.publicKey historyAddress :: ds.map Event.done ∧
        (AddFeed bl lib batchHex owner topic true historyAddress encrypt rLevel t).2 =
          t3 ++ [Event.manifestStore]
            ++ Event.uploadHandler stored bl.publicKey historyAddress :: ds.map Event.done
            ++ post ∧
        (post = [] ∨ ∃ a, post = [Event.done a] ∨ post = [Event.done a, Event.cleanup])) ∧
    (∀ (bl : Beelite) (lib : Lib) (batchHex : String) (stampSig : Bytes)
        (historyAddress : Address) (reader : Reader) (swarmTag : Nat) (t : Trace) (p : Putter)
        (t2 : Trace) (chunk : Chunk),
      AddChunkReaches bl lib batchHex stampSig reader swarmTag t p t2 chunk →
      ∃ (ds : List Address) (post : Trace),
        (actEncryptionHandler bl p chunk.address historyAddress t2).2 =
          t2 ++ Event.uploadHandler chunk.address bl.publicKey historyAddress
            :: ds.map Event.done ∧
        (AddChunk bl lib batchHex stampSig true historyAddress reader swarmTag t).2 =
          t2 ++ Event.uploadHandler chunk.address bl.publicKey historyAddress
            :: ds.map Event.done ++ post ∧
        (post = [] ∨ post = [Event.put chunk] ∨
          post = [Event.put chunk, Event.done chunk.address] ∨
          post = [Event.put chunk, Event.done chunk.address, Event.cleanup])) ∧
    (∀ (bl : Beelite) (lib : Lib) (batchHex : String) (stampSig : Bytes)
        (historyAddress : Address) (reader : Reader) (id owner sig : Bytes) (t : Trace)
        (p : Putter) (t1 : Trace) (sch : Chunk),
      AddSOCReaches bl lib batchHex stampSig reader id owner sig t p t1 sch →
      ∃ (ds : List Address) (post : Trace),
        (actEncryptionHandler bl p sch.address historyAddress t1).2 =
          t1 ++ Event.uploadHandler sch.address bl.publicKey historyAddress
            :: ds.map Event.done ∧
        (AddSOC bl lib batchHex stampSig true historyAddress reader id owner sig t).2 =
          t1 ++ Event.uploadHandler sch.address bl.publicKey historyAddress
            :: ds.map Event.done ++ post ∧
        (post = [] ∨ post = [Event.put sch] ∨
          post = [Event.put sch, Event.done sch.address] ∨
          post = [Event.put sch, Event.done sch.address, Event.cleanup])) := by
  refine ⟨?_, ?_, ?_, ?_⟩
  · intro bl lib batchHex historyAddress encrypt rLevel reader t p t1 ref hreach
    obtain ⟨ds, hds⟩ := actEncryptionHandler_trace bl p ref historyAddress
      (t1 ++ [Event.pipeline encrypt rLevel reader])
    refine ⟨ds, ?_⟩
    rw [AddBytes_of_reaches hreach]
    simp only [actIfRequested, if_true]
    rcases hres : actEncryptionHandler bl p ref historyAddress
      (t1 ++ [Event.pipeline encrypt rLevel reader]) with ⟨⟨r, nh, err⟩, t3⟩
    rw [hres] at hds
    simp only at hds
    subst hds
    cases err with
    | some e => exact ⟨[], rfl, by simp, Or.inl rfl⟩
    | none =>
      simp only
      split
      · exact ⟨[Event.done ref, Event.cleanup], by simp, by simp, Or.inr (Or.inr rfl)⟩
      · exact ⟨[Event.done ref], by simp, by simp, Or.inr (Or.inl rfl)⟩
  · intro bl lib batchHex owner topic historyAddress encrypt rLevel t p t3 stored hreach
    obtain ⟨ds, hds⟩ := actEncryptionHandler_trace bl p stored historyAddress
      (t3 ++ [Event.manifestStore])
    refine ⟨ds, ?_⟩
    rw [AddFeed_of_reaches hreach]
    simp only [actIfRequested, if_true]
    rcases hres : actEncryptionHandler bl p stored historyAddress
      (t3 ++ [Event.manifestStore]) with ⟨⟨r, nh, err⟩, t5⟩
    rw [hres] at hds
    simp only at hds
    subst hds
    cases err with
    | some e => exact ⟨[], rfl, by simp, Or.inl rfl⟩
    | none =>
      simp only
      split
      · exact ⟨[Event.done r, Event.cleanup], by simp, by simp, Or.inr ⟨r, Or.inr rfl⟩⟩
      · exact ⟨[Event.done r], by simp, by simp, Or.inr ⟨r, Or.inl rfl⟩⟩
  · intro bl lib batchHex stampSig historyAddress reader swarmTag t p t2 chunk hreach
    rw [AddChunk_of_reaches hreach]
    exact uploadChunk_act_trace bl p historyAddress chunk t2
  · intro bl lib batchHex stampSig historyAddress reader id owner sig t p t1 sch hreach
    rw [AddSOC_of_reaches hreach]
    exact uploadChunk_act_trace bl p historyAddress sch t1
/-- C9 (amended), instance: a protected AddChunk on the sample node reaches its
upload tail, and its calls after the session are the wrapper's calls followed by
the calls on the chunk. -/
theorem session_effects_order_witness :
    AddChunkReaches okNode sampleLib "aa" [] ⟨[1, 2, 3, 4, 5, 6, 7, 8, 9], none⟩ 0 [] okPutter
        [Event.batchExists [170], Event.getStampIssuer [170], Event.issuerUsable ⟨1⟩,
          Event.directUpload] ⟨[9, 45], [1, 2, 3, 4, 5, 6, 7, 8, 9]⟩ ∧
      ∃ (ds : List Address) (post : Trace),
        (actEncryptionHandler okNode okPutter [9, 45] ZeroAddress
            [Event.batchExists [170], Event.getStampIssuer [170], Event.issuerUsable ⟨1⟩,
              Event.directUpload]).2 =
          [Event.batchExists [170], Event.getStampIssuer [170], Event.issuerUsable ⟨1⟩,
              Event.directUpload]
            ++ Event.uploadHandler [9, 45] okNode.publicKey ZeroAddress :: ds.map Event.done ∧
        (AddChunk okNode sampleLib "aa" [] true ZeroAddress
            ⟨[1, 2, 3, 4, 5, 6, 7, 8, 9], none⟩ 0 []).2 =
          [Event.batchExists [170], Event.getStampIssuer [170], Event.issuerUsable ⟨1⟩,
              Event.directUpload]
            ++ Event.uploadHandler [9, 45] okNode.publicKey ZeroAddress :: ds.map Event.done
            ++ post ∧
        (post = [] ∨ post = [Event.put ⟨[9, 45], [1, 2, 3, 4, 5, 6, 7, 8, 9]⟩] ∨
          post = [Event.put ⟨[9, 45], [1, 2, 3, 4, 5, 6, 7, 8, 9]⟩, Event.done [9, 45]] ∨
          post = [Event.put ⟨[9, 45], [1, 2, 3, 4, 5, 6, 7, 8, 9]⟩, Event.done [9, 45],
            Event.cleanup]) :=
  have hreach : AddChunkReaches okNode sampleLib "aa" [] ⟨[1, 2, 3, 4, 5, 6, 7, 8, 9], none⟩ 0 []
      okPutter [Event.batchExists [170], Event.getStampIssuer [170], Event.issuerUsable ⟨1⟩,
        Event.directUpload] ⟨[9, 45], [1, 2, 3, 4, 5, 6, 7, 8, 9]⟩ :=
    ⟨[170], 0, [], rfl, rfl, rfl, rfl, by decide, Or.inl rfl⟩
  ⟨hreach, session_effects_order.2.2.1 okNode sampleLib "aa" [] ZeroAddress
    ⟨[1, 2, 3, 4, 5, 6, 7, 8, 9], none⟩ 0 [] okPutter _ _ hreach⟩
/-! ### Unusable batches -/

/-- C11 (as stated, refuted): the batch store reports that batch `[170]` does not
exist and the issuer lookup fails; getStamper fails with the wrapped lookup
error, which is not errBatchUnusable and does not contain it, and
newStamperPutter fails with an error that does not wrap errBatchUnusable. -/
theorem getStamper_missing_batch_issuer_error :
    issuerMissingNode.batchExists [] [170] = Except.ok false ∧
      getStamper issuerMissingNode [170] [] =
        (Except.error (Error.wrap "stamp issuer" (Error.collab 5)),
          [Event.batchExists [170], Event.getStampIssuer [170]]) ∧
      (Error.wrap "stamp issuer" (Error.collab 5)).is errBatchUnusable = false ∧
      (newStamperPutter issuerMissingNode ⟨[170], 0, false, false⟩ []).1 =
        Except.error (Error.wrap "get stamper" (Error.wrap "stamp issuer" (Error.collab 5))) ∧
      (Error.wrap "get stamper" (Error.wrap "stamp issuer" (Error.collab 5))).is
        errBatchUnusable = false :=
  ⟨rfl, rfl, by decide, rfl, by decide⟩

/-- C11 (amended): getStamper asks the batch store, then looks the issuer up, and
only then judges usability.  If the issuer lookup succeeds and the batch store
reported that the batch does not exist, or the batch exists and the postage
service reports the issuer as not usable, getStamper fails with
errBatchUnusable; if the batch does not exist and the issuer lookup fails, it
fails with the wrapped lookup error.  A stamper is returned only when the batch
exists and its issuer is usable.  Past the dev-mode gate newStamperPutter turns
errBatchUnusable into an error that wraps it. -/
theorem getStamper_unusable (bl : Beelite) (batchID : Bytes) (t : Trace) :
    (bl.batchExists t batchID = Except.ok false →
      (∀ issuer save,
        bl.getStampIssuer (t ++ [Event.batchExists batchID]) batchID = Except.ok (issuer, save) →
        getStamper bl batchID t =
          (Except.error errBatchUnusable,
            t ++ [Event.batchExists batchID, Event.getStampIssuer batchID])) ∧
      (∀ e,
        bl.getStampIssuer (t ++ [Event.batchExists batchID]) batchID = Except.error e →
        (getStamper bl batchID t).1 = Except.error (Error.wrap "stamp issuer" e))) ∧
    (∀ issuer save, bl.batchExists t batchID = Except.ok true →
      bl.getStampIssuer (t ++ [Event.batchExists batchID]) batchID = Except.ok (issuer, save) →
      bl.issuerUsable (t ++ [Event.batchExists batchID, Event.getStampIssuer batchID]) issuer
        = false →
      (getStamper bl batchID t).1 = Except.error errBatchUnusable) ∧
    (∀ st save, (getStamper bl batchID t).1 = Except.ok (st, save) →
      bl.batchExists t batchID = Except.ok true ∧
      bl.getStampIssuer (t ++ [Event.batchExists batchID]) batchID
        = Except.ok (st.issuer, save) ∧
      bl.issuerUsable (t ++ [Event.batchExists batchID, Event.getStampIssuer batchID])
        st.issuer = true) ∧
    (∀ opts : putterOptions, opts.BatchID = batchID →
      (opts.Deferred = true ∨ bl.devMode = false) →
      (getStamper bl batchID t).1 = Except.error errBatchUnusable →
      (newStamperPutter bl opts t).1
          = Except.error (Error.wrap "get stamper" errBatchUnusable) ∧
        (Error.wrap "get stamper" errBatchUnusable).is errBatchUnusable = true) := by
  refine ⟨?_, ?_, ?_, ?_⟩
  · intro hex
    refine ⟨?_, ?_⟩
    · intro issuer save hi
      simp [getStamper, hex, hi]
    · intro e hi
      simp [getStamper, hex, hi]
  · intro issuer save hex hi hu
    simp [getStamper, hex, hi, hu]
  · intro st save hok
    unfold getStamper at hok
    cases hex : bl.batchExists t batchID with
    | error e => simp [hex] at hok
    | ok found =>
      cases hi : bl.getStampIssuer (t ++ [Event.batchExists batchID]) batchID with
      | error e => simp [hex, hi] at hok
      | ok v =>
        obtain ⟨issuer, sv⟩ := v
        cases found with
        | false => simp [hex, hi] at hok
        | true =>
          cases hu : bl.issuerUsable
              (t ++ [Event.batchExists batchID, Event.getStampIssuer batchID]) issuer with
          | false => simp [hex, hi, hu] at hok
          | true =>
            simp [hex, hi, hu] at hok
            obtain ⟨h1, h2⟩ := hok
            subst h1 h2
            exact ⟨rfl, rfl, hu⟩
  · intro opts hb hgate hg
    refine ⟨?_, by decide⟩
    subst hb
    have hcond : (!opts.Deferred && bl.devMode) = false := by
      rcases hgate with h | h <;> simp [h]
    rcases hres : getStamper bl opts.BatchID t with ⟨r, t1⟩
    rw [hres] at hg
    simp only at hg
    subst hg
    simp [newStamperPutter, hcond, hres]

/-- C11 (amended), instance: the batch store does not know batch `[170]` while
the postage service has an issuer for it; getStamper fails with
errBatchUnusable and newStamperPutter wraps it. -/
theorem getStamper_unusable_witness :
    batchMissingNode.batchExists [] [170] = Except.ok false ∧
      getStamper batchMissingNode [170] [] =
        (Except.error errBatchUnusable,
          [] ++ [Event.batchExists [170], Event.getStampIssuer [170]]) ∧
      (newStamperPutter batchMissingNode ⟨[170], 0, false, false⟩ []).1
        = Except.error (Error.wrap "get stamper" errBatchUnusable) :=
  have H := getStamper_unusable batchMissingNode [170] []
  ⟨rfl, (H.1 rfl).1 ⟨1⟩ (fun _ => none) rfl,
    (H.2.2.2 ⟨[170], 0, false, false⟩ rfl (Or.inr rfl) rfl).1⟩

/-! ### Dev mode -/

/-- C12: on a node in dev mode newStamperPutter returns errUnsupportedDevNodeOperation
for every options value with Deferred = false, whatever Pin is, without any
collaborator call (the trace is unchanged, so no batch lookup and no session
creation); AddBytes, AddFeed, AddRevokeGrantees and CreateGrantees, which pass
Deferred = false, return that error with zero addresses on every input that
reaches putter creation. -/
theorem devMode_rejects_non_deferred (bl : Beelite) (lib : Lib) (hdev : bl.devMode = true) :
    (∀ (opts : putterOptions) (t : Trace), opts.Deferred = false →
      newStamperPutter bl opts t = (Except.error errUnsupportedDevNodeOperation, t)) ∧
    (∀ (batchHex : String) (act : Bool) (historyAddress : Address) (encrypt : Bool)
        (rLevel : Nat) (reader : Reader) (t : Trace) (batch : Bytes),
      batchHex ≠ "" → lib.hexDecode batchHex = Except.ok batch →
      AddBytes bl lib batchHex act historyAddress encrypt rLevel reader t =
        (⟨ZeroAddress, ZeroAddress, some errUnsupportedDevNodeOperation⟩, t)) ∧
    (∀ (batchHex owner topic : String) (act : Bool) (historyAddress : Address)
        (encrypt : Bool) (rLevel : Nat) (t : Trace) (ownerB topicB batch : Bytes),
      lib.hexDecode owner = Except.ok ownerB → lib.hexDecode topic = Except.ok topicB →
      batchHex ≠ "" → lib.hexDecode batchHex = Except.ok batch →
      AddFeed bl lib batchHex owner topic act historyAddress encrypt rLevel t =
        (⟨ZeroAddress, ZeroAddress, some errUnsupportedDevNodeOperation⟩, t)) ∧
    (∀ (batchHex : String) (granteesAddress historyAddress : Address)
        (addlist revokelist : Option (List String)) (t : Trace) (pa pr : List PublicKey)
        (batch : Bytes),
      (addlist.isNone && revokelist.isNone) = false →
      parseKeys lib addlist = (pa, none) → parseKeys lib revokelist = (pr, none) →
      lib.hexDecode batchHex = Except.ok batch →
      AddRevokeGrantees bl lib batchHex granteesAddress historyAddress addlist revokelist t =
        (⟨ZeroAddress, ZeroAddress, some errUnsupportedDevNodeOperation⟩, t)) ∧
    (∀ (batchHex : String) (historyAddress : Address) (granteeList : Option (List String))
        (t : Trace) (batch : Bytes),
      granteeList.isNone = false → lib.hexDecode batchHex = Except.ok batch →
      CreateGrantees bl lib batchHex historyAddress granteeList t =
        (⟨ZeroAddress, ZeroAddress, some errUnsupportedDevNodeOperation⟩, t)) := by
  have hput : ∀ (opts : putterOptions) (t : Trace), opts.Deferred = false →
      newStamperPutter bl opts t = (Except.error errUnsupportedDevNodeOperation, t) := by
    intro opts t hd
    simp [newStamperPutter, hd, hdev]
  refine ⟨hput, ?_, ?_, ?_, ?_⟩
  · intro batchHex act historyAddress encrypt rLevel reader t batch hne hb
    simp [AddBytes, hne, hb, hput]
  · intro batchHex owner topic act historyAddress encrypt rLevel t ownerB topicB batch
      ho ht hne hb
    simp [AddFeed, ho, ht, hne, hb, hput]
  · intro batchHex granteesAddress historyAddress addlist revokelist t pa pr batch
      hnil hpa hpr hb
    simp only [AddRevokeGrantees, hnil, hpa, hpr, hb, hput ⟨batch, 0, false, false⟩ t rfl]
    simp
  · intro batchHex historyAddress granteeList t batch hnil hb
    simp only [CreateGrantees, hnil, hb, hput ⟨batch, 0, false, false⟩ t rfl]
    simp

/-- C12, instance: on the sample node in dev mode a pinned, non-deferred putter is
refused, and so is AddBytes on a decodable batch. -/
theorem devMode_rejects_non_deferred_witness :
    devNode.devMode = true ∧
      newStamperPutter devNode ⟨[170], 0, false, true⟩ []
        = (Except.error errUnsupportedDevNodeOperation, []) ∧
      AddBytes devNode sampleLib "aa" true ZeroAddress false 0 ⟨[1, 2, 3], none⟩ [] =
        (⟨ZeroAddress, ZeroAddress, some errUnsupportedDevNodeOperation⟩, []) :=
  have H := devMode_rejects_non_deferred devNode sampleLib rfl
  ⟨rfl, H.1 ⟨[170], 0, false, true⟩ [] rfl,
    H.2.1 "aa" true ZeroAddress false 0 ⟨[1, 2, 3], none⟩ [] [170] (by decide) rfl⟩
/-! ### Payload bounds -/

/-- Obtaining a stamper makes no Put and no Done call. -/
theorem getStamper_no_put_done (bl : Beelite) (batchID : Bytes) (t : Trace) :
    (getStamper bl batchID t).2.filter Event.isPutOrDone = t.filter Event.isPutOrDone := by
  unfold getStamper
  cases hex : bl.batchExists t batchID with
  | error e => simp [Event.isPutOrDone]
  | ok found =>
    cases hi : bl.getStampIssuer (t ++ [Event.batchExists batchID]) batchID with
    | error e => simp [hi, Event.isPutOrDone]
    | ok v =>
      obtain ⟨issuer, save⟩ := v
      cases found with
      | false => simp [hi, Event.isPutOrDone]
      | true =>
        cases hu : bl.issuerUsable
            (t ++ [Event.batchExists batchID, Event.getStampIssuer batchID]) issuer <;>
          simp [hi, hu, Event.isPutOrDone]

/-- Creating a putter makes no Put and no Done call. -/
theorem newStamperPutter_no_put_done (bl : Beelite) (opts : putterOptions) (t : Trace) :
    (newStamperPutter bl opts t).2.filter Event.isPutOrDone = t.filter Event.isPutOrDone := by
  have hg := getStamper_no_put_done bl opts.BatchID t
  unfold newStamperPutter
  split
  · rfl
  · rcases hres : getStamper bl opts.BatchID t with ⟨r, t1⟩
    rw [hres] at hg
    simp only at hg
    cases r with
    | error e => simpa using hg
    | ok v =>
      obtain ⟨stamper, save⟩ := v
      simp only
      split
      · cases bl.upload t1 opts.Pin opts.TagID <;> simp [Event.isPutOrDone, hg]
      · simp [Event.isPutOrDone, hg]

/-- Creating a putter for AddChunk or AddSOC makes no Put and no Done call. -/
theorem stampedOrStamperPutter_no_put_done (bl : Beelite) (lib : Lib) (stampSig batch : Bytes)
    (tag : Nat) (deferred pin : Bool) (t : Trace) :
    (stampedOrStamperPutter bl lib stampSig batch tag deferred pin t).2.filter Event.isPutOrDone
      = t.filter Event.isPutOrDone := by
  unfold stampedOrStamperPutter
  split
  · cases lib.stampUnmarshal stampSig <;> simp [Event.isPutOrDone]
  · exact newStamperPutter_no_put_done bl _ t

/-- C13: AddSOC returns a non-nil error and the zero reference, with no Put and
no Done call, for every data shorter than SpanSize or longer than
ChunkSize + SpanSize; for every length from SpanSize to ChunkSize + SpanSize,
both included, a run that has its putter and its data goes on to
cac.NewWithDataSpan and what follows, so the length checks do not reject.
AddChunk returns a non-nil error and the zero reference, with no Put and no
Done call, for every data shorter than SpanSize. -/
theorem payload_bounds :
    (∀ (bl : Beelite) (lib : Lib) (batchHex : String) (stampSig : Bytes) (act : Bool)
        (historyAddress : Address) (reader : Reader) (id owner sig : Bytes) (t : Trace),
      reader.data.length < SpanSize ∨ reader.data.length > ChunkSize + SpanSize →
      (AddSOC bl lib batchHex stampSig act historyAddress reader id owner sig t).1.err ≠ none ∧
      (AddSOC bl lib batchHex stampSig act historyAddress reader id owner sig t).1.reference
        = ZeroAddress ∧
      (AddSOC bl lib batchHex stampSig act historyAddress reader id owner sig t).2.filter
        Event.isPutOrDone = t.filter Event.isPutOrDone) ∧
    (∀ (bl : Beelite) (lib : Lib) (batchHex : String) (stampSig : Bytes) (act : Bool)
        (historyAddress : Address) (reader : Reader) (id owner sig : Bytes) (t : Trace)
        (batch : Bytes) (p : Putter) (t1 : Trace),
      SpanSize ≤ reader.data.length → reader.data.length ≤ ChunkSize + SpanSize →
      batchHex ≠ "" → lib.hexDecode batchHex = Except.ok batch →
      stampedOrStamperPutter bl lib stampSig batch 0 false false t = (Except.ok p, t1) →
      reader.err = none →
      AddSOC bl lib batchHex stampSig act historyAddress reader id owner sig t =
        match lib.cacNewWithDataSpan reader.data with
        | Except.error err => (⟨ZeroAddress, ZeroAddress, some err⟩, t1)
        | Except.ok chunk =>
          match lib.socNewSigned id chunk owner sig with
          | Except.error err => (⟨ZeroAddress, ZeroAddress, some err⟩, t1)
          | Except.ok ss =>
            match lib.socChunk ss with
            | Except.error err => (⟨ZeroAddress, ZeroAddress, some err⟩, t1)
            | Except.ok sch =>
              if !lib.socValid sch then (⟨ZeroAddress, ZeroAddress, none⟩, t1)
              else uploadChunk bl p act historyAddress sch t1) ∧
    (∀ (bl : Beelite) (lib : Lib) (batchHex : String) (stampSig : Bytes) (act : Bool)
        (historyAddress : Address) (reader : Reader) (swarmTag : Nat) (t : Trace),
      reader.data.length < SpanSize →
      (AddChunk bl lib batchHex stampSig act historyAddress reader swarmTag t).1.err ≠ none ∧
      (AddChunk bl lib batchHex stampSig act historyAddress reader swarmTag t).1.reference
        = ZeroAddress ∧
      (AddChunk bl lib batchHex stampSig act historyAddress reader swarmTag t).2.filter
        Event.isPutOrDone = t.filter Event.isPutOrDone) := by
  refine ⟨?_, ?_, ?_⟩
  · intro bl lib batchHex stampSig act historyAddress reader id owner sig t hbad
    unfold AddSOC
    by_cases hne : batchHex = ""
    · simp [hne]
    · simp only [if_neg hne]
      cases hb : lib.hexDecode batchHex with
      | error e => simp [errInvalidPostageBatch]
      | ok batch =>
        have hp := stampedOrStamperPutter_no_put_done bl lib stampSig batch 0 false false t
        rcases hres : stampedOrStamperPutter bl lib stampSig batch 0 false false t with ⟨r, t1⟩
        rw [hres] at hp
        simp only at hp
        simp only [hres]
        cases r with
        | error e => simp [hp]
        | ok putter =>
          cases hr : reader.err with
          | some e => simp [hp]
          | none =>
            rcases hbad with hlt | hgt
            · simp [hlt, hp]
            · have hnlt : ¬ reader.data.length < SpanSize := by
                simp only [SpanSize, ChunkSize] at hgt ⊢
                omega
              simp [hnlt, hgt, hp]
  · intro bl lib batchHex stampSig act historyAddress reader id owner sig t batch p t1
      hlo hhi hne hb hp hr
    have hnlt : ¬ reader.data.length < SpanSize := by omega
    have hngt : ¬ reader.data.length > ChunkSize + SpanSize := by omega
    simp only [AddSOC, if_neg hne, hb, hp, hr, if_neg hnlt, if_neg hngt]
  · intro bl lib batchHex stampSig act historyAddress reader swarmTag t hlt
    unfold AddChunk
    cases hb : lib.hexDecode batchHex with
    | error e => simp [errInvalidPostageBatch]
    | ok batch =>
      have hs : ∃ tag oe t1,
          (if swarmTag > 0 then getOrCreateSessionID bl swarmTag t else ((0, none), t))
            = ((tag, oe), t1) ∧ t1.filter Event.isPutOrDone = t.filter Event.isPutOrDone := by
        by_cases h0 : swarmTag > 0
        · have hz : ¬ swarmTag = 0 := by omega
          simp only [if_pos h0, getOrCreateSessionID, if_neg hz]
          exact ⟨(bl.session t swarmTag).1, (bl.session t swarmTag).2,
            t ++ [Event.session swarmTag], rfl, by simp [Event.isPutOrDone]⟩
        · exact ⟨0, none, t, by simp only [if_neg h0], rfl⟩
      obtain ⟨tag, oe, t1, hs, ht1⟩ := hs
      simp only [hs]
      cases oe with
      | some e => simp [ht1]
      | none =>
        have hp := stampedOrStamperPutter_no_put_done bl lib stampSig batch tag (tag != 0) false t1
        rcases hres : stampedOrStamperPutter bl lib stampSig batch tag (tag != 0) false t1
          with ⟨r, t2⟩
        rw [hres] at hp
        simp only at hp
        simp only [hres]
        cases r with
        | error e => simp [hp, ht1]
        | ok putter =>
          cases hr : reader.err with
          | some e => simp [hp, ht1]
          | none => simp [hlt, hp, ht1]

/-- C13, instance: on the sample node AddSOC refuses seven bytes, and on eight
bytes, the lower bound, it goes on to build and store the chunk. -/
theorem payload_bounds_witness :
    ((⟨[1, 2, 3, 4, 5, 6, 7], none⟩ : Reader).data.length < SpanSize ∨
        (⟨[1, 2, 3, 4, 5, 6, 7], none⟩ : Reader).data.length > ChunkSize + SpanSize) ∧
      (AddSOC okNode sampleLib "aa" [] false ZeroAddress ⟨[1, 2, 3, 4, 5, 6, 7], none⟩
          sampleId sampleOwner (sampleSign sampleOwner [34, 76]) []).1.err ≠ none ∧
      (AddSOC okNode sampleLib "aa" [] false ZeroAddress ⟨[1, 2, 3, 4, 5, 6, 7], none⟩
          sampleId sampleOwner (sampleSign sampleOwner [34, 76]) []).1.reference
        = ZeroAddress ∧
      AddSOC okNode sampleLib "aa" [] false ZeroAddress ⟨[1, 2, 3, 4, 5, 6, 7, 8], none⟩
          sampleId sampleOwner (sampleSign sampleOwner [34, 76]) [] =
        (⟨[52, 72], ZeroAddress, none⟩,
          [Event.batchExists [170], Event.getStampIssuer [170], Event.issuerUsable ⟨1⟩,
            Event.directUpload,
            Event.put ⟨[52, 72],
              sampleId ++ sampleSign sampleOwner [34, 76] ++ [1, 2, 3, 4, 5, 6, 7, 8]⟩,
            Event.done [52, 72]]) :=
  have H := payload_bounds.1 okNode sampleLib "aa" [] false ZeroAddress
    ⟨[1, 2, 3, 4, 5, 6, 7], none⟩ sampleId sampleOwner (sampleSign sampleOwner [34, 76]) []
    (Or.inl (by decide))
  ⟨Or.inl (by decide), H.1, H.2.1,
    (payload_bounds.2.1 okNode sampleLib "aa" [] false ZeroAddress
      ⟨[1, 2, 3, 4, 5, 6, 7, 8], none⟩ sampleId sampleOwner (sampleSign sampleOwner [34, 76])
      [] [170] okPutter
      [Event.batchExists [170], Event.getStampIssuer [170], Event.issuerUsable ⟨1⟩,
        Event.directUpload]
      (by decide) (by decide) (by decide) rfl rfl rfl).trans (by decide)⟩

/-! ### Resolving a feed -/

/-- C15 (defect in the code): the lookup finds the update chunk of the feed, the
retrieval of its wrapped chunk fails with collaborator error 7, and
FeedGetHandler returns the zero address with a nil error: the failure does not
reach the caller and the result is the same as for a never-updated feed. -/
theorem FeedGetHandler_swallows_wrapped_chunk_error :
    wrappedFailsNode.lookupAt [Event.newLookup [2] [1]] [2] [1] 5 0
        = Except.ok (some ⟨[2, 3], [2, 1]⟩) ∧
      wrappedFailsNode.getWrappedChunk
          [Event.newLookup [2] [1], Event.lookupAt [2] [1] 5 0] ⟨[2, 3], [2, 1]⟩
        = Except.error (Error.collab 7) ∧
      FeedGetHandler wrappedFailsNode [1] [2] 5 0 [] =
        ((ZeroAddress, none),
          [Event.newLookup [2] [1], Event.lookupAt [2] [1] 5 0,
            Event.getWrappedChunk ⟨[2, 3], [2, 1]⟩]) ∧
      (FeedGetHandler wrappedFailsNode [1] [2] 5 0 []).1
        = (FeedGetHandler neverUpdatedNode [1] [2] 5 0 []).1 :=
  ⟨rfl, rfl, by decide, by decide⟩

/-! ### Failed protected uploads -/

/-- C16 (defect in the code): AddBytes with protect = true returns the plain
pipeline root `[3, 6]` together with a non-nil error, both when the
access-control upload fails and when the final Done fails. -/
theorem AddBytes_error_returns_plain_root :
    AddBytes uploadFailsNode sampleLib "aa" true ZeroAddress false 0 ⟨[1, 2, 3], none⟩ [] =
        (⟨[3, 6], ZeroAddress, some (Error.collab 6)⟩,
          [Event.batchExists [170], Event.getStampIssuer [170], Event.issuerUsable ⟨1⟩,
            Event.directUpload, Event.pipeline false 0 ⟨[1, 2, 3], none⟩,
            Event.uploadHandler [3, 6] ⟨1, 2⟩ ZeroAddress]) ∧
      AddBytes doneFailsNode sampleLib "aa" true [50] false 0 ⟨[1, 2, 3], none⟩ [] =
        (⟨[3, 6], [50],
            some (Error.join2 (Error.wrap "(done split) upload failed 2" (Error.collab 1))
              (Error.collab 2))⟩,
          [Event.batchExists [170], Event.getStampIssuer [170], Event.issuerUsable ⟨1⟩,
            Event.directUpload, Event.pipeline false 0 ⟨[1, 2, 3], none⟩,
            Event.uploadHandler [3, 6] ⟨1, 2⟩ [50], Event.done [3, 6], Event.cleanup]) ∧
      uploadFailsNode.feedPipeline [Event.batchExists [170], Event.getStampIssuer [170],
          Event.issuerUsable ⟨1⟩, Event.directUpload] okPutter false 0 ⟨[1, 2, 3], none⟩
        = ([3, 6], none) ∧
      ([3, 6] : Address) ≠ ZeroAddress := by
  decide
/-! ### parseKeys -/

/-- An entry yields a key exactly when it is valid hex that parses as a public key. -/
theorem parseKey_ok_iff (lib : Lib) (g : String) (k : PublicKey) :
    parseKey lib g = Except.ok k ↔
      ∃ h, lib.hexDecode g = Except.ok h ∧ lib.parsePubKey h = Except.ok k := by
  unfold parseKey
  cases hd : lib.hexDecode g with
  | error e => simp
  | ok h =>
    cases hp : lib.parsePubKey h with
    | error e => simp [hp]
    | ok k2 => simp [hp]

/-- One iteration of the loop of parseKeys. -/
theorem parseKeysLoop_cons (lib : Lib) (g : String) (rest : List String)
    (acc : List PublicKey) :
    parseKeysLoop lib (g :: rest) acc =
      match parseKey lib g with
      | Except.error e => ([], some e)
      | Except.ok k => parseKeysLoop lib rest (acc ++ [k]) := by
  simp only [parseKeysLoop, parseKey]
  cases hd : lib.hexDecode g with
  | error e => simp
  | ok h => cases hp : lib.parsePubKey h <;> simp [hp]

/-- The loop of parseKeys either appends the keys of all entries, in order, or
stops at the first entry that raises an error and returns that error with an
empty list. -/
theorem parseKeysLoop_spec (lib : Lib) (l : List String) :
    ∀ acc : List PublicKey,
      (∃ ks, List.Forall₂ (fun g k => parseKey lib g = Except.ok k) l ks ∧
        parseKeysLoop lib l acc = (acc ++ ks, none)) ∨
      (∃ pre g post e, l = pre ++ g :: post ∧
        (∀ x ∈ pre, ∃ k, parseKey lib x = Except.ok k) ∧
        parseKey lib g = Except.error e ∧ parseKeysLoop lib l acc = ([], some e)) := by
  induction l with
  | nil =>
    intro acc
    exact Or.inl ⟨[], List.Forall₂.nil, by simp [parseKeysLoop]⟩
  | cons g rest ih =>
    intro acc
    rw [parseKeysLoop_cons]
    cases hg : parseKey lib g with
    | error e =>
      exact Or.inr ⟨[], g, rest, e, rfl, by simp, hg, rfl⟩
    | ok k =>
      rcases ih (acc ++ [k]) with ⟨ks, hks, hrun⟩ | ⟨pre, g2, post, e, hl, hpre, hg2, hrun⟩
      · exact Or.inl ⟨k :: ks, List.Forall₂.cons hg hks, by simp [hrun]⟩
      · refine Or.inr ⟨g :: pre, g2, post, e, by simp [hl], ?_, hg2, by simp [hrun]⟩
        intro x hx
        rcases List.mem_cons.mp hx with hx | hx
        · exact ⟨k, by rw [hx]; exact hg⟩
        · exact hpre x hx

/-- Every entry of a list whose entries were parsed position by position yields
a key. -/
theorem forall2_parseKey_mem (lib : Lib) {l : List String} {ks : List PublicKey}
    (h : List.Forall₂ (fun g k => parseKey lib g = Except.ok k) l ks) :
    ∀ g ∈ l, ∃ k, parseKey lib g = Except.ok k := by
  induction h with
  | nil =>
    intro g hg
    cases hg
  | cons hab _ ih =>
    intro g hg
    rcases List.mem_cons.mp hg with hg | hg
    · exact ⟨_, by rw [hg]; exact hab⟩
    · exact ih g hg

/-- C17: parseKeys returns a nil error exactly when every entry is valid hex that
parses as a public key.  On success the result has the length of the input and
its entries are, position by position, the keys parsed from the input entries;
a nil and an empty list both give the empty list with a nil error.  On failure
the returned list is empty and the error is the one raised by the first entry,
in list order, that is not a valid key. -/
theorem parseKeys_all_or_nothing (lib : Lib) (list : Option (List String)) :
    ((parseKeys lib list).2 = none ↔
      ∀ g ∈ list.getD [], ∃ h k, lib.hexDecode g = Except.ok h ∧
        lib.parsePubKey h = Except.ok k) ∧
    ((parseKeys lib list).2 = none →
      (parseKeys lib list).1.length = (list.getD []).length ∧
      List.Forall₂ (fun g k => parseKey lib g = Except.ok k) (list.getD [])
        (parseKeys lib list).1) ∧
    (∀ e, (parseKeys lib list).2 = some e →
      (parseKeys lib list).1 = [] ∧
      ∃ pre g post, list.getD [] = pre ++ g :: post ∧
        (∀ x ∈ pre, ∃ k, parseKey lib x = Except.ok k) ∧
        parseKey lib g = Except.error e) ∧
    parseKeys lib none = ([], none) ∧ parseKeys lib (some []) = ([], none) := by
  have hspec := parseKeysLoop_spec lib (list.getD []) []
  have hall : ∀ ks, List.Forall₂ (fun g k => parseKey lib g = Except.ok k) (list.getD []) ks →
      ∀ g ∈ list.getD [], ∃ h k, lib.hexDecode g = Except.ok h ∧
        lib.parsePubKey h = Except.ok k := by
    intro ks hks g hg
    obtain ⟨k, hk⟩ := forall2_parseKey_mem lib hks g hg
    obtain ⟨h, hh, hp⟩ := (parseKey_ok_iff lib g k).mp hk
    exact ⟨h, k, hh, hp⟩
  refine ⟨?_, ?_, ?_, by simp [parseKeys, parseKeysLoop], by simp [parseKeys, parseKeysLoop]⟩
  · constructor
    · intro hnone
      rcases hspec with ⟨ks, hks, hrun⟩ | ⟨pre, g, post, e, hl, hpre, hg, hrun⟩
      · exact hall ks hks
      · simp [parseKeys, hrun] at hnone
    · intro hvalid
      rcases hspec with ⟨ks, hks, hrun⟩ | ⟨pre, g, post, e, hl, hpre, hg, hrun⟩
      · simp [parseKeys, hrun]
      · exfalso
        have hmem : g ∈ list.getD [] := by rw [hl]; simp
        obtain ⟨h, k, hh, hp⟩ := hvalid g hmem
        have hk := (parseKey_ok_iff lib g k).mpr ⟨h, hh, hp⟩
        rw [hk] at hg
        cases hg
  · intro hnone
    rcases hspec with ⟨ks, hks, hrun⟩ | ⟨pre, g, post, e, hl, hpre, hg, hrun⟩
    · have h1 : (parseKeys lib list).1 = ks := by simp [parseKeys, hrun]
      rw [h1]
      exact ⟨hks.length_eq.symm, hks⟩
    · simp [parseKeys, hrun] at hnone
  · intro e he
    rcases hspec with ⟨ks, hks, hrun⟩ | ⟨pre, g, post, e2, hl, hpre, hg, hrun⟩
    · simp [parseKeys, hrun] at he
    · have h2 : e2 = e := by simpa [parseKeys, hrun] using he
      subst h2
      exact ⟨by simp [parseKeys, hrun], pre, g, post, hl, hpre, hg⟩
/-! ### checkOverlay -/

/-- C18 (as stated, refuted): on a store holding no overlay whose Put fails,
checkOverlay fails and nothing is stored; on a store holding the overlay
`[1, 2]` whose Get fails, checkOverlay of `[1, 2]` fails although the stored
overlay equals the given one. -/
theorem checkOverlay_fails_with_store :
    putFailsStore.entries noncedOverlayKey = none ∧
      (checkOverlay putFailsStore [1, 2]).1 = some (Error.collab 9) ∧
      (checkOverlay putFailsStore [1, 2]).2.entries noncedOverlayKey = none ∧
      getFailsStore.entries noncedOverlayKey = some [1, 2] ∧
      (checkOverlay getFailsStore [1, 2]).1 = some (Error.collab 8) := by
  decide

/-- A read failure of the store is returned and nothing is written. -/
theorem checkOverlay_of_getFault (s : StateStore) (o : Address) (code : Nat)
    (hg : s.getFault s.calls noncedOverlayKey = some code) :
    (checkOverlay s o).1 = some (Error.collab code) ∧ (checkOverlay s o).2.entries = s.entries := by
  have hnf : (Error.collab code).is ErrNotFound = false := by
    simp [Error.is, ErrNotFound]
  simp [checkOverlay, StateStore.get, hg, hnf]

/-- On a store that holds an overlay and answers the read, checkOverlay succeeds
exactly when the given overlay is the stored one. -/
theorem checkOverlay_of_stored (s : StateStore) (x o : Address)
    (hg : s.getFault s.calls noncedOverlayKey = none)
    (hx : s.entries noncedOverlayKey = some x) :
    ((checkOverlay s o).1 = none ↔ x = o) := by
  by_cases hxo : x = o
  · simp [checkOverlay, StateStore.get, hg, hx, hxo]
  · simp [checkOverlay, StateStore.get, hg, hx, hxo]

/-- A stored overlay is never replaced: on a store that holds an overlay
checkOverlay leaves the entries as they are, whatever the store answers, and it
fails when the given overlay differs from the stored one. -/
theorem checkOverlay_keeps_stored (s : StateStore) (x o : Address)
    (hx : s.entries noncedOverlayKey = some x) :
    (checkOverlay s o).2.entries = s.entries ∧ ((checkOverlay s o).1 = none → x = o) := by
  cases hg : s.getFault s.calls noncedOverlayKey with
  | some code =>
    have h := checkOverlay_of_getFault s o code hg
    exact ⟨h.2, fun hnone => by rw [h.1] at hnone; cases hnone⟩
  | none =>
    refine ⟨?_, (checkOverlay_of_stored s x o hg hx).mp⟩
    by_cases hxo : x = o
    · simp [checkOverlay, StateStore.get, hg, hx, hxo]
    · simp [checkOverlay, StateStore.get, hg, hx, hxo]

/-- A store that holds an overlay keeps its entries through any run of
checkOverlay calls. -/
theorem checkOverlays_keeps_stored (x : Address) (os : List Address) :
    ∀ s : StateStore, s.entries noncedOverlayKey = some x →
      (checkOverlays s os).entries = s.entries := by
  induction os with
  | nil =>
    intro s _
    rfl
  | cons o rest ih =>
    intro s hx
    have h := (checkOverlay_keeps_stored s x o hx).1
    have hx2 : (checkOverlay s o).2.entries noncedOverlayKey = some x := by rw [h]; exact hx
    have h2 := ih (checkOverlay s o).2 hx2
    simp only [checkOverlays, List.foldl_cons] at h2 ⊢
    rw [h2, h]

/-- C18 (amended): checkOverlay pins the node identity in the state store as far
as the store answers.  A Get failure other than not-found is returned and
nothing is written.  On a store holding no overlay whose Get answers, the given
overlay is put under the nonce-overlay key: if the Put succeeds checkOverlay
succeeds, the overlay is stored and every other key is as it was; if the Put
fails its error is returned and nothing is stored.  On a store already holding
an overlay the entries are never modified, checkOverlay fails whenever the given
overlay differs from the stored one, and when the Get answers it succeeds
exactly when they are equal.  Hence after one successful checkOverlay of `o` the
store holds `o`; after any further run of checkOverlay calls it still holds
`o`, a checkOverlay of `q` can succeed only when `q = o`, and it succeeds
exactly when `q = o` if its Get answers. -/
theorem checkOverlay_pins_overlay (s : StateStore) (o : Address) :
    (∀ code, s.getFault s.calls noncedOverlayKey = some code →
      (checkOverlay s o).1 = some (Error.collab code) ∧
      (checkOverlay s o).2.entries = s.entries) ∧
    (s.getFault s.calls noncedOverlayKey = none → s.entries noncedOverlayKey = none →
      (s.putFault (s.calls + 1) noncedOverlayKey = none →
        (checkOverlay s o).1 = none ∧
        (checkOverlay s o).2.entries noncedOverlayKey = some o ∧
        ∀ k, k ≠ noncedOverlayKey → (checkOverlay s o).2.entries k = s.entries k) ∧
      (∀ code, s.putFault (s.calls + 1) noncedOverlayKey = some code →
        (checkOverlay s o).1 = some (Error.collab code) ∧
        (checkOverlay s o).2.entries = s.entries)) ∧
    (∀ x, s.entries noncedOverlayKey = some x →
      (checkOverlay s o).2.entries = s.entries ∧
      ((checkOverlay s o).1 = none → x = o) ∧
      (s.getFault s.calls noncedOverlayKey = none → ((checkOverlay s o).1 = none ↔ x = o))) ∧
    ((checkOverlay s o).1 = none →
      (checkOverlay s o).2.entries noncedOverlayKey = some o ∧
      ∀ (later : List Address) (q : Address),
        (checkOverlays (checkOverlay s o).2 later).entries = (checkOverlay s o).2.entries ∧
        (checkOverlay (checkOverlays (checkOverlay s o).2 later) q).2.entries
          = (checkOverlay s o).2.entries ∧
        ((checkOverlay (checkOverlays (checkOverlay s o).2 later) q).1 = none → q = o) ∧
        ((checkOverlays (checkOverlay s o).2 later).getFault
            (checkOverlays (checkOverlay s o).2 later).calls noncedOverlayKey = none →
          ((checkOverlay (checkOverlays (checkOverlay s o).2 later) q).1 = none ↔ q = o))) := by
  have hnf : ErrNotFound.is ErrNotFound = true := Error.is_self _
  have hfresh : s.getFault s.calls noncedOverlayKey = none → s.entries noncedOverlayKey = none →
      s.putFault (s.calls + 1) noncedOverlayKey = none →
      (checkOverlay s o).1 = none ∧
      (checkOverlay s o).2.entries noncedOverlayKey = some o ∧
      ∀ k, k ≠ noncedOverlayKey → (checkOverlay s o).2.entries k = s.entries k := by
    intro hg hnone hp
    refine ⟨?_, ?_, ?_⟩
    · simp [checkOverlay, StateStore.get, StateStore.put, hg, hnone, hp, hnf]
    · simp [checkOverlay, StateStore.get, StateStore.put, hg, hnone, hp, hnf]
    · intro k hk
      simp [checkOverlay, StateStore.get, StateStore.put, hg, hnone, hp, hnf, hk]
  refine ⟨fun code hg => checkOverlay_of_getFault s o code hg, ?_, ?_, ?_⟩
  · intro hg hnone
    refine ⟨hfresh hg hnone, ?_⟩
    intro code hp
    simp [checkOverlay, StateStore.get, StateStore.put, hg, hnone, hp, hnf]
  · intro x hx
    have h := checkOverlay_keeps_stored s x o hx
    exact ⟨h.1, h.2, fun hg => checkOverlay_of_stored s x o hg hx⟩
  · intro hok
    have hheld : (checkOverlay s o).2.entries noncedOverlayKey = some o := by
      cases hx : s.entries noncedOverlayKey with
      | some x =>
        have h := checkOverlay_keeps_stored s x o hx
        rw [h.1, hx, h.2 hok]
      | none =>
        cases hg : s.getFault s.calls noncedOverlayKey with
        | some code =>
          rw [(checkOverlay_of_getFault s o code hg).1] at hok
          cases hok
        | none =>
          cases hp : s.putFault (s.calls + 1) noncedOverlayKey with
          | none => exact (hfresh hg hx hp).2.1
          | some code =>
            have : (checkOverlay s o).1 = some (Error.collab code) := by
              simp [checkOverlay, StateStore.get, StateStore.put, hg, hx, hp, hnf]
            rw [this] at hok
            cases hok
    refine ⟨hheld, ?_⟩
    intro later q
    have hsame := checkOverlays_keeps_stored o later (checkOverlay s o).2 hheld
    have hheld2 : (checkOverlays (checkOverlay s o).2 later).entries noncedOverlayKey = some o := by
      rw [hsame]; exact hheld
    have hq := checkOverlay_keeps_stored (checkOverlays (checkOverlay s o).2 later) o q hheld2
    refine ⟨hsame, by rw [hq.1, hsame], fun h => (hq.2 h).symm, ?_⟩
    intro hg
    have hiff := checkOverlay_of_stored (checkOverlays (checkOverlay s o).2 later) o q hg hheld2
    exact ⟨fun h => (hiff.mp h).symm, fun h => hiff.mpr h.symm⟩

/-- C18 (amended), instance: on the empty store that never fails, checkOverlay of
`[1, 2]` succeeds and stores it; afterwards a check of `[1, 2]` succeeds, a
check of `[3]` fails, and after both the store still holds `[1, 2]`.  On the
store whose Get fails the failure is returned, and on the store whose Put fails
the failure is returned and nothing is stored. -/
theorem checkOverlay_pins_overlay_witness :
    emptyStore.entries noncedOverlayKey = none ∧
      (checkOverlay emptyStore [1, 2]).1 = none ∧
      (checkOverlay emptyStore [1, 2]).2.entries noncedOverlayKey = some [1, 2] ∧
      (checkOverlay (checkOverlays (checkOverlay emptyStore [1, 2]).2 [[3], [1, 2]]) [1, 2]).1
        = none ∧
      (checkOverlay (checkOverlays (checkOverlay emptyStore [1, 2]).2 [[3], [1, 2]]) [3]).1
        ≠ none ∧
      (checkOverlays (checkOverlay emptyStore [1, 2]).2 [[3], [1, 2]]).entries noncedOverlayKey
        = some [1, 2] ∧
      ((checkOverlay getFailsStore [3]).1 = some (Error.collab 8) ∧
        (checkOverlay getFailsStore [3]).2.entries = getFailsStore.entries) ∧
      ((checkOverlay putFailsStore [3]).1 = some (Error.collab 9) ∧
        (checkOverlay putFailsStore [3]).2.entries = putFailsStore.entries) :=
  have H := checkOverlay_pins_overlay emptyStore [1, 2]
  have H1 := (H.2.1 rfl rfl).1 rfl
  have H3 := H.2.2.2 H1.1
  ⟨rfl, H1.1, H1.2.1,
    ((H3.2 [[3], [1, 2]] [1, 2]).2.2.2 rfl).mpr rfl,
    fun h => absurd ((H3.2 [[3], [1, 2]] [3]).2.2.1 h) (by decide),
    by rw [(H3.2 [[3], [1, 2]] [1, 2]).1]; exact H1.2.1,
    (checkOverlay_pins_overlay getFailsStore [3]).1 8 rfl,
    ((checkOverlay_pins_overlay putFailsStore [3]).2.1 rfl rfl).2 9 rfl⟩

end BeeLite
